import Mathlib

/-!
# Synapse exchange — shallow embedding and verification

This file embeds the core exchange of the `synapse-proto` repository
(`CoreServer`: session auth, job/bid/negotiation/review state machine,
credit+stake ledger, deadline scheduler, evidence log) as executable Lean
definitions, translated from the TypeScript source, and proves or refutes
the specification claims about it.

Modelling conventions:
* JavaScript numbers are modelled as exact rationals (`Rat`) where the code
  manipulates possibly-fractional quantities (prices, percentages, scores)
  and as `Int`/`Nat` where the code has already floored them.  `Math.floor`
  and `Math.ceil` are `jsFloor`/`jsCeil` on rationals.
* `Map` objects are association lists preserving insertion order
  (`getA`/`setA`/`updA` mirror `get`/`set`/in-place mutation).
* `Date.now()` is an explicit `now : Nat` parameter per operation and
  `crypto.randomUUID()` is an explicit fresh-id parameter; nothing in the
  verified properties depends on their values.
* External collaborators keep their contract but not their internals:
  Ed25519 verification outcome and the code evaluator outcome are explicit
  oracle inputs to the step (the spec treats both as external).
* The optional persistence driver is disabled (`DATABASE_URL` unset), as in
  the default configuration; all `this.db` branches are no-ops.
-/

set_option maxRecDepth 100000

/-- `Math.floor` on an exact rational. -/
def jsFloor (q : Rat) : Int := q.num.fdiv q.den

/-- `Math.ceil` on an exact rational. -/
def jsCeil (q : Rat) : Int := -(jsFloor (-q))

/-- Exact product of rationals (`Batteries.Rat.mul` is `@[irreducible]`,
which blocks `decide`; this normalized construction is extensionally the
same product). -/
def ratMul (a b : Rat) : Rat := mkRat (a.num * b.num) (a.den * b.den)

def ratOfInt (n : Int) : Rat := mkRat n 1

def ratOfNat (n : Nat) : Rat := mkRat (Int.ofNat n) 1

/-- Association list lookup, first match (mirrors `Map.get`). -/
def getA {α : Type} (k : String) : List (String × α) → Option α
  | [] => none
  | (k2, v) :: rest => if k2 = k then some v else getA k rest

/-- Association list insert-or-replace preserving position (mirrors `Map.set`). -/
def setA {α : Type} (k : String) (v : α) : List (String × α) → List (String × α)
  | [] => [(k, v)]
  | (k2, v2) :: rest => if k2 = k then (k2, v) :: rest else (k2, v2) :: setA k v rest

/-- In-place update of an existing entry (mirrors mutating an object held in a `Map`). -/
def updA {α : Type} (k : String) (f : α → α) : List (String × α) → List (String × α)
  | [] => []
  | (k2, v) :: rest => if k2 = k then (k2, f v) :: rest else (k2, v) :: updA k f rest

/-- Association list removal (mirrors `Map.delete`). -/
def removeA {α : Type} (k : String) : List (String × α) → List (String × α)
  | [] => []
  | (k2, v) :: rest => if k2 = k then rest else (k2, v) :: removeA k rest

/-! ## SHA-256 (for `deriveAgentId` in `identity.ts`)

A direct executable implementation of FIPS 180-4 SHA-256 over byte lists,
with 32-bit words as `Nat` reduced mod `2^32`. -/

namespace Sha256

def w32 : Nat := 4294967296

def rotr (n x : Nat) : Nat := ((x >>> n) ||| (x <<< (32 - n))) % w32

def bigSigma0 (x : Nat) : Nat := (rotr 2 x) ^^^ (rotr 13 x) ^^^ (rotr 22 x)
def bigSigma1 (x : Nat) : Nat := (rotr 6 x) ^^^ (rotr 11 x) ^^^ (rotr 25 x)
def smallSigma0 (x : Nat) : Nat := (rotr 7 x) ^^^ (rotr 18 x) ^^^ (x >>> 3)
def smallSigma1 (x : Nat) : Nat := (rotr 17 x) ^^^ (rotr 19 x) ^^^ (x >>> 10)

def ch (x y z : Nat) : Nat := (x &&& y) ^^^ ((x ^^^ (w32 - 1)) &&& z)
def maj (x y z : Nat) : Nat := (x &&& y) ^^^ (x &&& z) ^^^ (y &&& z)

def K : List Nat := [
  1116352408, 1899447441, 3049323471, 3921009573, 961987163, 1508970993,
  2453635748, 2870763221, 3624381080, 310598401, 607225278, 1426881987,
  1925078388, 2162078206, 2614888103, 3248222580, 3835390401, 4022224774,
  264347078, 604807628, 770255983, 1249150122, 1555081692, 1996064986,
  2554220882, 2821834349, 2952996808, 3210313671, 3336571891, 3584528711,
  113926993, 338241895, 666307205, 773529912, 1294757372, 1396182291,
  1695183700, 1986661051, 2177026350, 2456956037, 2730485921, 2820302411,
  3259730800, 3345764771, 3516065817, 3600352804, 4094571909, 275423344,
  430227734, 506948616, 659060556, 883997877, 958139571, 1322822218,
  1537002063, 1747873779, 1955562222, 2024104815, 2227730452, 2361852424,
  2428436474, 2756734187, 3204031479, 3329325298]

def H0 : List Nat := [
  1779033703, 3144134277, 1013904242, 2773480762, 1359893119, 2600822924,
  528734635, 1541459225]

/-- Pad the message per FIPS 180-4 (append `0x80`, zeros, 64-bit big-endian length). -/
def pad (msg : List Nat) : List Nat :=
  let l := msg.length
  let zeros := (64 - ((l + 9) % 64)) % 64
  let lenBits := l * 8
  msg ++ [128] ++ List.replicate zeros 0 ++
    [(lenBits >>> 56) % 256, (lenBits >>> 48) % 256, (lenBits >>> 40) % 256,
     (lenBits >>> 32) % 256, (lenBits >>> 24) % 256, (lenBits >>> 16) % 256,
     (lenBits >>> 8) % 256, lenBits % 256]

/-- Split a padded byte list into 64-byte chunks of sixteen 32-bit big-endian words. -/
def toWords : List Nat → List Nat
  | b0 :: b1 :: b2 :: b3 :: rest => ((b0 <<< 24) + (b1 <<< 16) + (b2 <<< 8) + b3) :: toWords rest
  | _ => []

def chunksAux : Nat → List Nat → List (List Nat)
  | 0, _ => []
  | _, [] => []
  | fuel + 1, w :: ws => ((w :: ws).take 16) :: chunksAux fuel ((w :: ws).drop 16)

def chunks (ws : List Nat) : List (List Nat) := chunksAux ws.length ws

/-- Message-schedule extension step, over the reversed schedule accumulator:
`acc.head` is `w[i-1]`, so `w[i-2] = acc[1]`, `w[i-7] = acc[6]`,
`w[i-15] = acc[14]`, `w[i-16] = acc[15]`. -/
def extendLoop : Nat → List Nat → List Nat
  | 0, acc => acc
  | fuel + 1, acc =>
    let x := (smallSigma1 (acc.getD 1 0) + acc.getD 6 0 +
              smallSigma0 (acc.getD 14 0) + acc.getD 15 0) % w32
    extendLoop fuel (x :: acc)

/-- Extend sixteen words to the 64-entry message schedule. -/
def extendW (w16 : List Nat) : List Nat := (extendLoop 48 w16.reverse).reverse

/-- The eight working variables of the compression function. -/
structure Regs where
  a : Nat
  b : Nat
  c : Nat
  d : Nat
  e : Nat
  f : Nat
  g : Nat
  h : Nat

/-- The 64 compression rounds, consuming round constants and schedule in step. -/
def rounds : List Nat → List Nat → Regs → Regs
  | k :: ks, w :: ws, r =>
    let t1 := (r.h + bigSigma1 r.e + ch r.e r.f r.g + k + w) % w32
    let t2 := (bigSigma0 r.a + maj r.a r.b r.c) % w32
    rounds ks ws ⟨(t1 + t2) % w32, r.a, r.b, r.c, (r.d + t1) % w32, r.e, r.f, r.g⟩
  | _, _, r => r

/-- One compression application over a 16-word chunk. -/
def compress (h : List Nat) (chunk : List Nat) : List Nat :=
  let w := extendW chunk
  let r0 : Regs := ⟨h.getD 0 0, h.getD 1 0, h.getD 2 0, h.getD 3 0,
                    h.getD 4 0, h.getD 5 0, h.getD 6 0, h.getD 7 0⟩
  let r := rounds K w r0
  [(h.getD 0 0 + r.a) % w32, (h.getD 1 0 + r.b) % w32, (h.getD 2 0 + r.c) % w32,
   (h.getD 3 0 + r.d) % w32, (h.getD 4 0 + r.e) % w32, (h.getD 5 0 + r.f) % w32,
   (h.getD 6 0 + r.g) % w32, (h.getD 7 0 + r.h) % w32]

/-- SHA-256 digest of a byte list, as a list of 32 bytes. -/
def digest (msg : List Nat) : List Nat :=
  let hFinal := (chunks (toWords (pad msg))).foldl compress H0
  hFinal.flatMap fun x => [(x >>> 24) % 256, (x >>> 16) % 256, (x >>> 8) % 256, x % 256]

end Sha256

/-- UTF-8 encoding of one character. -/
def charUtf8 (c : Char) : List Nat :=
  let n := c.toNat
  if n < 0x80 then [n]
  else if n < 0x800 then [0xC0 ||| (n >>> 6), 0x80 ||| (n &&& 0x3F)]
  else if n < 0x10000 then
    [0xE0 ||| (n >>> 12), 0x80 ||| ((n >>> 6) &&& 0x3F), 0x80 ||| (n &&& 0x3F)]
  else
    [0xF0 ||| (n >>> 18), 0x80 ||| ((n >>> 12) &&& 0x3F), 0x80 ||| ((n >>> 6) &&& 0x3F),
     0x80 ||| (n &&& 0x3F)]

/-- UTF-8 bytes of a string (`Buffer.from(s, 'utf8')`). -/
def utf8Bytes (s : String) : List Nat := (s.data.map charUtf8).flatten

def hexDigitChar (n : Nat) : Char :=
  match n with
  | 0 => '0' | 1 => '1' | 2 => '2' | 3 => '3' | 4 => '4' | 5 => '5' | 6 => '6' | 7 => '7'
  | 8 => '8' | 9 => '9' | 10 => 'a' | 11 => 'b' | 12 => 'c' | 13 => 'd' | 14 => 'e' | _ => 'f'

/-- Lowercase hex rendering of a byte list (`digest('hex')`). -/
def bytesToHex (bs : List Nat) : String :=
  String.mk (bs.flatMap fun b => [hexDigitChar ((b >>> 4) % 16), hexDigitChar (b % 16)])

/-- `sha256_hex` over the UTF-8 bytes of a string:
`crypto.createHash('sha256').update(s, 'utf8').digest('hex')`. -/
def sha256Hex (s : String) : String := bytesToHex (Sha256.digest (utf8Bytes s))

/-- `deriveAgentId` from `identity.ts`: deterministic agent identity derived
from the base64 DER public key string. -/
def deriveAgentId (publicKeyDerB64 : String) : String :=
  "agent_" ++ sha256Hex publicKeyDerB64


/-! ## Data model (`server.ts` — `CoreServer`)

Types follow the TypeScript declarations.  The job `payload` is a free-form
string-keyed bag in the source; the core reads and writes exactly the keys
`negotiation`, `acceptedTerms`, `acceptedPrice`, `lastSubmission`,
`autoVerify` and `timeoutSeconds`, so it is embedded as a structure of
optional typed sub-documents (unknown keys are never read by the core and
are dropped by the embedding). -/

structure LedgerAccount where
  credits : Int
  locked : Int
deriving DecidableEq, Repr

structure Reputation where
  completed : Nat
  failed : Nat
deriving DecidableEq, Repr

/-- `Terms` (`{upfrontPct, deadlineSeconds, maxRevisions}`). -/
structure Terms where
  upfrontPct : Rat
  deadlineSeconds : Rat
  maxRevisions : Nat
deriving DecidableEq, Repr

structure BidderRep where
  completed : Nat
  failed : Nat
  score : Rat
deriving DecidableEq, Repr

structure Bid where
  id : String
  jobId : String
  bidderId : String
  price : Int
  etaSeconds : Int
  createdAtMs : Nat
  pitch : Option String
  terms : Option Terms
  bidderRep : Option BidderRep
deriving DecidableEq, Repr

inductive JobStatus
  /-- source status string "open" (renamed: `open` is a Lean keyword) -/
  | opened
  | awarded
  | in_review
  | completed
  | cancelled
  | failed
deriving DecidableEq, Repr

inductive Role
  | boss
  | worker
deriving DecidableEq, Repr

inductive NegStatus
  | pending
  | accept
  | reject
  | max_rounds
deriving DecidableEq, Repr

structure HistoryEntry where
  round : Nat
  fromRole : Role
  price : Rat
  terms : Terms
  notes : Option String
  atMs : Nat
deriving DecidableEq, Repr

/-- `NegotiationState`, stored under `payload.negotiation`. -/
structure NegotiationState where
  workerId : String
  bidId : String
  bidPrice : Int
  price : Rat
  status : NegStatus
  round : Nat
  terms : Terms
  notes : Option String
  atMs : Nat
  decidedAtMs : Option Nat
  history : List HistoryEntry
deriving DecidableEq, Repr

/-- `payload.lastSubmission` (`{atMs, by, result}`; `by` is a Lean keyword). -/
structure Submission where
  atMs : Nat
  byAgent : String
  result : String
deriving DecidableEq, Repr

/-- `payload.autoVerify` (`{ok}` or `{ok:false, reason}`). -/
structure AutoVerify where
  ok : Bool
  reason : Option String
deriving DecidableEq, Repr

structure Payload where
  negotiation : Option NegotiationState := none
  acceptedTerms : Option Terms := none
  acceptedPrice : Option Rat := none
  lastSubmission : Option Submission := none
  autoVerify : Option AutoVerify := none
  timeoutSeconds : Option Rat := none
deriving DecidableEq, Repr

def Payload.empty : Payload := {}

/-- `JobState` (a `Job` plus bids, escrow and stake bookkeeping). -/
structure JobState where
  id : String
  title : String
  description : Option String
  budget : Int
  requesterId : String
  createdAtMs : Nat
  status : JobStatus
  workerId : Option String
  kind : String
  payload : Payload
  bids : List Bid
  lockedBudget : Int
  lockedStake : Int
  awardedAtMs : Option Nat
  paidUpfront : Int
deriving DecidableEq, Repr

structure AgentMeta where
  agentName : String
  publicKeyDerB64 : Option String
deriving DecidableEq, Repr

structure EvidenceItem where
  id : String
  atMs : Nat
  jobId : String
  kind : String
  detail : String
deriving DecidableEq, Repr

/-- The mutable entity graph of `CoreServer` (sessions are kept separately;
`jobTimeouts` keeps the armed delay in ms per job id). -/
structure ServerState where
  ledger : List (String × LedgerAccount)
  agentMeta : List (String × AgentMeta)
  reputation : List (String × Reputation)
  jobs : List (String × JobState)
  evidence : List EvidenceItem
  timers : List (String × Int)
deriving DecidableEq, Repr

def ServerState.init : ServerState := ⟨[], [], [], [], [], []⟩

/-- Startup configuration (`SYNAPSE_WORKER_STAKE_PCT`,
`SYNAPSE_WORKER_SLASH_PCT`, `SYNAPSE_NEGOTIATION_MAX_ROUNDS`). -/
structure Config where
  stakePct : Rat
  slashPct : Rat
  maxRounds : Int
deriving DecidableEq, Repr

def defaultConfig : Config := ⟨mkRat 1 20, mkRat 1 2, 3⟩

def DEFAULT_STARTING_CREDITS : Int := 1000

/-! ## Outbound messages and observable events -/

structure JobWire where
  id : String
  title : String
  description : Option String
  budget : Int
  requesterId : String
  createdAtMs : Nat
  status : JobStatus
  workerId : Option String
  kind : String
  payload : Payload
deriving DecidableEq, Repr

def JobState.wire (j : JobState) : JobWire :=
  ⟨j.id, j.title, j.description, j.budget, j.requesterId, j.createdAtMs, j.status, j.workerId,
   j.kind, j.payload⟩

inductive ReviewDecision
  | accept
  | reject
  | changes
deriving DecidableEq, Repr

inductive OfferDecision
  | accept
  | reject
deriving DecidableEq, Repr

/-- Server-to-agent broadcast messages (wire payloads per `protocol.ts`). -/
inductive OutMsg
  | job_posted (job : JobState)
  | job_updated (job : JobWire)
  | bid_posted (bid : Bid)
  | job_awarded (jobId workerId : String) (budgetLocked : Int)
  | offer_made (jobId requesterId workerId : String) (price : Rat) (terms : Terms)
      (notes : Option String)
  | counter_made (jobId requesterId workerId : String) (fromRole : Role) (fromId : String)
      (price : Rat) (terms : Terms) (notes : Option String) (round : Nat)
  | offer_response (jobId requesterId workerId : String) (decision : OfferDecision)
      (notes : Option String)
  | negotiation_ended (jobId requesterId workerId : String) (reason : String) (round : Int)
  | job_submitted (jobId workerId : String) (bytes : Nat) (preview : String)
  | job_reviewed (jobId : String) (decision : ReviewDecision) (notes : Option String)
  | job_completed (jobId workerId : String) (paid : Int)
  | job_failed (jobId workerId : String) (reason : String)
deriving DecidableEq, Repr

/-- Observable emissions of one operation, in order: `err` is `this.fail`
to the handling session, `bcast` is `this.broadcast`, `ledgerUpdate` /
`repUpdate` / `agentAuthedTape` / `evidenceTape` mirror the directed
messages and tape events. -/
inductive Ev
  | err (message : String)
  | bcast (m : OutMsg)
  | authedReply (agentId : String) (credits : Int)
  | ledgerUpdate (agentId : String) (credits locked : Int)
  | repUpdate (agentId : String) (completed failed : Nat) (score : Rat)
  | agentAuthedTape (agentId agentName : String) (credits : Int)
  | evidenceTape (jobId kind detail : String)
deriving DecidableEq, Repr

/-- Result of one operation: next state, ordered emissions, and a thrown
exception for the `throw new Error(...)` paths of the system calls (a throw
is not an on-wire `error` message). -/
structure HRes where
  st : ServerState
  evs : List Ev
  thrown : Option String := none
deriving DecidableEq, Repr

/-! ## Ledger / reputation / evidence / timer helpers -/

def repScore (rep : Reputation) : Rat :=
  mkRat (Int.ofNat (rep.completed + 1)) (rep.completed + rep.failed + 2)

def repOf (st : ServerState) (agentId : String) : Reputation :=
  (getA agentId st.reputation).getD ⟨0, 0⟩

/-- The bumped reputation row of `bumpReputation` (`outcome` true =
completed). -/
def nextRep (agentId : String) (outcomeCompleted : Bool) (st : ServerState) : Reputation :=
  let rep := repOf st agentId
  if outcomeCompleted then { rep with completed := rep.completed + 1 }
  else { rep with failed := rep.failed + 1 }

/-- State effect of `bumpReputation`. -/
def bumpReputation (agentId : String) (outcomeCompleted : Bool) (st : ServerState) :
    ServerState :=
  { st with reputation := setA agentId (nextRep agentId outcomeCompleted st) st.reputation }

/-- The `rep_update` tape event emitted by `bumpReputation`. -/
def bumpReputationEv (agentId : String) (outcomeCompleted : Bool) (st : ServerState) : Ev :=
  .repUpdate agentId (nextRep agentId outcomeCompleted st).completed
    (nextRep agentId outcomeCompleted st).failed (repScore (nextRep agentId outcomeCompleted st))

/-- `workerStakeForJob`: `clamp(floor(budget * stakePct), 0, 200)`. -/
def workerStakeForJob (cfg : Config) (job : JobState) : Int :=
  max 0 (min 200 (jsFloor (ratMul (ratOfInt job.budget) cfg.stakePct)))

/-- The reputation-weighted stake multiplier of `workerStakeFor`. -/
def stakeMult (score : Rat) : Rat :=
  if score ≥ mkRat 3 4 then mkRat 1 2
  else if score ≥ mkRat 3 5 then 1
  else if score ≥ mkRat 9 20 then mkRat 3 2
  else mkRat 2 1

/-- `workerStakeFor`: base stake weighted by the worker's reputation score,
clamped to `[0, 500]`. -/
def workerStakeFor (cfg : Config) (st : ServerState) (job : JobState) (workerId : String) : Int :=
  let base := workerStakeForJob cfg job
  if base ≤ 0 then 0
  else
    let score := repScore (repOf st workerId)
    max 0 (min 500 (jsFloor (ratMul (ratOfInt base) (stakeMult score))))

/-- `slashForStake`: `clamp(ceil(stake * slashPct), 0, stake)`. -/
def slashForStake (cfg : Config) (stake : Int) : Int :=
  max 0 (min stake (jsCeil (ratMul (ratOfInt stake) cfg.slashPct)))

/-- `addEvidence`: unshift onto the in-memory ring, cap at 500 (its tape
event, `Ev.evidenceTape jobId kind detail`, is emitted literally at each
call site).  The random part of the item id is modelled by a fixed token
(nothing reads it). -/
def addEvidence (now : Nat) (jobId kind detail : String) (st : ServerState) : ServerState :=
  { st with evidence :=
      ((⟨toString now ++ "-x", now, jobId, kind, detail⟩ : EvidenceItem) :: st.evidence).take 500 }

/-- `sendLedgerUpdate`: directed `ledger_update` plus tape, skipped when the
account does not exist. -/
def sendLedgerUpdate (agentId : String) (st : ServerState) : List Ev :=
  match getA agentId st.ledger with
  | none => []
  | some acct => [.ledgerUpdate agentId acct.credits acct.locked]

def updLedger (agentId : String) (f : LedgerAccount → LedgerAccount) (st : ServerState) :
    ServerState :=
  { st with ledger := updA agentId f st.ledger }

/-- `disarmTimeout`. -/
def disarmTimeout (jobId : String) (st : ServerState) : ServerState :=
  { st with timers := removeA jobId st.timers }

/-- `armTimeout`: single-shot timer keyed by job id; delay from
`payload.timeoutSeconds` when positive, else 900 s. -/
def armTimeout (jobId : String) (st : ServerState) : ServerState :=
  let st := disarmTimeout jobId st
  match getA jobId st.jobs with
  | none => st
  | some job =>
    if job.status = .awarded ∧ job.workerId.isSome then
      let raw := (job.payload.timeoutSeconds).getD 0
      let timeoutSeconds := if raw > 0 then raw else mkRat 900 1
      { st with timers := setA jobId (jsFloor (ratMul timeoutSeconds (mkRat 1000 1))) st.timers }
    else st

def broadcastJobUpdate (job : JobState) : Ev := .bcast (.job_updated job.wire)

/-! ## System calls (settlement, failure, reopen)

`throw new Error(...)` paths return `thrown`; mutations made before the
throw point stay applied, as in the source.  Each result lists its emitted
events in source order. -/

/-- `systemCompleteJob`: settlement-success from `awarded` or `in_review`. -/
def systemCompleteJob (now : Nat) (jobId workerId : String) (st : ServerState) : HRes :=
  match getA jobId st.jobs with
  | none => ⟨st, [], some "job_not_found"⟩
  | some job =>
    if job.status ≠ .awarded ∧ job.status ≠ .in_review then ⟨st, [], some "job_not_awarded"⟩
    else if job.workerId ≠ some workerId then ⟨st, [], some "not_assigned_worker"⟩
    else
      let st1 := disarmTimeout job.id st
      let job2 := { job with status := JobStatus.completed }
      let st2 := { st1 with jobs := setA job.id job2 st1.jobs }
      if ((getA job.requesterId st2.ledger).isNone || (getA workerId st2.ledger).isNone : Bool) then
        ⟨st2, [], some "ledger_missing"⟩
      else
        let remainder : Int := max 0 (job.lockedBudget - job.paidUpfront)
        let st3 := updLedger job.requesterId
          (fun a => { a with locked := a.locked - remainder, credits := a.credits - remainder }) st2
        let st4 := updLedger workerId (fun a => { a with credits := a.credits + remainder }) st3
        let st5 := bumpReputation workerId true st4
        let stake := job.lockedStake
        let st6 := if stake > 0 then
            updLedger workerId (fun a => { a with locked := a.locked - stake }) st5
          else st5
        let detail := "success paid_total=" ++ toString job.lockedBudget ++ " paid_upfront=" ++
          toString job.paidUpfront ++ " paid_remainder=" ++ toString remainder ++
          " stake_unlocked=" ++ toString stake
        let st7 := addEvidence now job.id "settlement" detail st6
        ⟨st7, [bumpReputationEv workerId true st4] ++
              (if stake > 0 then sendLedgerUpdate workerId st6 else []) ++
              [.evidenceTape job.id "settlement" detail,
               .bcast (.job_completed job.id workerId job.lockedBudget)] ++
              sendLedgerUpdate job.requesterId st7 ++ sendLedgerUpdate workerId st7, none⟩

/-- `systemFailJob`: settlement-failure from `awarded` or `in_review`
(refund of the outstanding remainder, stake slash, `failed` reputation).
Note that `job.lockedBudget` is left as-is. -/
def systemFailJob (cfg : Config) (now : Nat) (jobId workerId reason : String)
    (st : ServerState) : HRes :=
  match getA jobId st.jobs with
  | none => ⟨st, [], some "job_not_found"⟩
  | some job =>
    if job.status ≠ .awarded ∧ job.status ≠ .in_review then ⟨st, [], some "job_not_awarded"⟩
    else if job.workerId ≠ some workerId then ⟨st, [], some "not_assigned_worker"⟩
    else
      let st1 := disarmTimeout job.id st
      let job2 := { job with status := JobStatus.failed }
      let st2 := { st1 with jobs := setA job.id job2 st1.jobs }
      let st3 := bumpReputation workerId false st2
      let requesterExists := (getA job.requesterId st3.ledger).isSome
      let refund : Int := max 0 (job.lockedBudget - job.paidUpfront)
      let st4 := if requesterExists then
          updLedger job.requesterId (fun a => { a with locked := a.locked - refund }) st3
        else st3
      let workerExists := (getA workerId st4.ledger).isSome
      let stake := job.lockedStake
      let doSlash : Bool := workerExists && decide (stake > 0)
      let slash : Int := if doSlash then slashForStake cfg stake else 0
      let st5 := if doSlash then
          let stW := updLedger workerId
            (fun a => { a with locked := a.locked - stake, credits := a.credits - slash }) st4
          if requesterExists then
            updLedger job.requesterId (fun a => { a with credits := a.credits + slash }) stW
          else stW
        else st4
      let detail := "failed reason=" ++ reason ++ " refund_locked=" ++ toString refund ++
        " paid_upfront=" ++ toString job.paidUpfront ++ " stake_unlocked=" ++ toString stake ++
        " slash=" ++ toString slash
      let st6 := addEvidence now job.id "settlement" detail st5
      ⟨st6, [bumpReputationEv workerId false st2] ++
            (if doSlash then
              sendLedgerUpdate workerId st5 ++
              (if requesterExists then sendLedgerUpdate job.requesterId st5 else [])
             else []) ++
            [.evidenceTape job.id "settlement" detail,
             .bcast (.job_failed job.id workerId reason)] ++
            sendLedgerUpdate job.requesterId st6, none⟩

/-- `systemReopenJob`: cancel timer, release the (still recorded)
`lockedBudget` reservation, clear contract fields, set `open`. -/
def systemReopenJob (jobId : String) (st : ServerState) : HRes :=
  match getA jobId st.jobs with
  | none => ⟨st, [], some "job_not_found"⟩
  | some job =>
    if job.status ≠ .awarded ∧ job.status ≠ .failed then ⟨st, [], none⟩
    else
      let st1 := disarmTimeout job.id st
      let st2 := if (getA job.requesterId st1.ledger).isSome then
          updLedger job.requesterId (fun a => { a with locked := a.locked - job.lockedBudget }) st1
        else st1
      let job2 := { job with
        status := JobStatus.opened
        workerId := none
        lockedBudget := 0
        lockedStake := 0
        awardedAtMs := none }
      let st3 := { st2 with jobs := setA job.id job2 st2.jobs }
      ⟨st3, [broadcastJobUpdate job2] ++ sendLedgerUpdate job.requesterId st3, none⟩

/-! ## Award path -/

/-- `awardJob`: shared by the direct `award` handler and negotiation
acceptance.  Both call sites pass the calling session as `errWs`, so
failures always surface as directed `error` messages. -/
def awardJob (cfg : Config) (now : Nat) (requesterId : String) (job : JobState)
    (workerId : String) (agreedPrice : Option Rat) (notes : Option String)
    (st : ServerState) : HRes :=
  if job.requesterId ≠ requesterId then ⟨st, [.err "not_job_owner"], none⟩
  else if job.status ≠ .opened then ⟨st, [.err "job_not_open"], none⟩
  else if ¬ job.bids.any (fun b => b.bidderId = workerId) then
    ⟨st, [.err "worker_has_no_bid"], none⟩
  else
    let settledBudget : Int := max 1 (match agreedPrice with
      | some p => jsFloor p
      | none => job.budget)
    if settledBudget > job.budget then ⟨st, [.err "agreed_price_over_budget"], none⟩
    else match getA requesterId st.ledger with
    | none => ⟨st, [.err "no_ledger_account"], none⟩
    | some acct =>
      if acct.credits - acct.locked < settledBudget then
        ⟨st, [.err "insufficient_credits"], none⟩
      else match getA workerId st.ledger with
      | none => ⟨st, [.err "worker_no_ledger_account"], none⟩
      | some workerAcct =>
        let stake := workerStakeFor cfg st job workerId
        if stake > 0 ∧ workerAcct.credits - workerAcct.locked < stake then
          ⟨st, [.err "worker_insufficient_stake"], none⟩
        else
          let st1 := updLedger requesterId
            (fun a => { a with locked := a.locked + settledBudget }) st
          let st2 := if stake > 0 then
              updLedger workerId (fun a => { a with locked := a.locked + stake }) st1
            else st1
          let job2 := { job with
            lockedBudget := settledBudget
            status := JobStatus.awarded
            workerId := some workerId
            awardedAtMs := some now
            lockedStake := stake }
          let detail1 := "worker=" ++ workerId.take 12 ++ " budget_locked=" ++
            toString settledBudget ++ " stake_locked=" ++ toString stake ++
            (match notes with | some n => " notes=" ++ n | none => "")
          let st3 := addEvidence now job.id "award" detail1 st2
          match job2.payload.acceptedTerms with
          | some acceptedTerms =>
            let upfront : Int := max 0 (min job2.lockedBudget
              (jsFloor (ratMul (ratOfInt job2.lockedBudget) acceptedTerms.upfrontPct)))
            if upfront > 0 then
              let st4 := updLedger requesterId
                (fun a => { a with locked := a.locked - upfront, credits := a.credits - upfront })
                st3
              let st5 := updLedger workerId (fun a => { a with credits := a.credits + upfront }) st4
              let job3 := { job2 with paidUpfront := upfront }
              let detail2 := "paid_upfront=" ++ toString upfront ++ " pct=" ++
                toString acceptedTerms.upfrontPct
              let st6 := addEvidence now job.id "upfront" detail2 st5
              let st7 := armTimeout job.id { st6 with jobs := setA job.id job3 st6.jobs }
              ⟨st7, [.bcast (.job_awarded job.id workerId settledBudget)] ++
                    (if stake > 0 then sendLedgerUpdate workerId st2 else []) ++
                    [.evidenceTape job.id "award" detail1] ++
                    sendLedgerUpdate job.requesterId st5 ++ sendLedgerUpdate workerId st5 ++
                    [.evidenceTape job.id "upfront" detail2], none⟩
            else
              let st7 := armTimeout job.id { st3 with jobs := setA job.id job2 st3.jobs }
              ⟨st7, [.bcast (.job_awarded job.id workerId settledBudget)] ++
                    (if stake > 0 then sendLedgerUpdate workerId st2 else []) ++
                    [.evidenceTape job.id "award" detail1], none⟩
          | none =>
            let st7 := armTimeout job.id { st3 with jobs := setA job.id job2 st3.jobs }
            ⟨st7, [.bcast (.job_awarded job.id workerId settledBudget)] ++
                  (if stake > 0 then sendLedgerUpdate workerId st2 else []) ++
                  [.evidenceTape job.id "award" detail1], none⟩

/-! ## Client messages and handlers

`ClientMsg` is the post-validation shape of `AgentToServerMsg`
(`protocol.ts`); numeric fields are exact rationals, floored exactly where
the handlers floor them. -/

inductive ClientMsg
  | auth (agentName publicKey signature nonce : String)
  | post_job (title : String) (description : Option String) (budget : Rat)
      (kind : Option String) (payload : Option Payload)
  | bid (jobId : String) (price etaSeconds : Rat) (pitch : Option String)
      (terms : Option Terms)
  | award (jobId workerId : String) (notes : Option String)
  | counter_offer (jobId workerId : String) (price : Rat) (terms : Terms)
      (notes : Option String)
  | worker_counter (jobId requesterId : String) (price : Rat) (terms : Terms)
      (notes : Option String)
  | offer_decision (jobId requesterId : String) (decision : OfferDecision)
      (notes : Option String)
  | submit (jobId result : String)
  | review (jobId : String) (decision : ReviewDecision) (notes : Option String)
deriving DecidableEq, Repr

/-- Session state bound to one connection. -/
structure SessCtx where
  challengeNonceB64 : String
  authed : Bool
  agentId : Option String
  agentName : Option String
  publicKeyDerB64 : Option String
deriving DecidableEq, Repr

def SessCtx.fresh (nonce : String) : SessCtx := ⟨nonce, false, none, none, none⟩

/-- Evaluator outcome contract (`evaluateSubmission` is an external
collaborator executing submitted code; only its result shape is owned by
the exchange). -/
inductive EvalResult
  | success
  | failure (reason : String)
deriving DecidableEq, Repr

/-- Per-operation environment inputs: current time, fresh entity id,
Ed25519 verification outcome, evaluator outcome. -/
structure StepIn where
  now : Nat
  freshId : String
  verifyOk : Bool
  evalOut : EvalResult
deriving DecidableEq, Repr

/-- `handleAuth` (persistence disabled, so the `db_error_auth` rollback
path cannot occur). -/
def handleAuth (sess : SessCtx) (agentName publicKey nonce : String) (verifyOk : Bool)
    (st : ServerState) : SessCtx × HRes :=
  if sess.authed then (sess, ⟨st, [], none⟩)
  else if nonce ≠ sess.challengeNonceB64 then (sess, ⟨st, [.err "bad_nonce"], none⟩)
  else if agentName.length < 1 then (sess, ⟨st, [.err "bad_agent_name"], none⟩)
  else if ¬ verifyOk then (sess, ⟨st, [.err "signature_verification_failed"], none⟩)
  else
    let agentId := deriveAgentId publicKey
    let sess := { sess with
      authed := true
      agentId := some agentId
      agentName := some agentName
      publicKeyDerB64 := some publicKey }
    let st := { st with agentMeta := setA agentId ⟨agentName, some publicKey⟩ st.agentMeta }
    let st := if (getA agentId st.ledger).isNone then
        { st with ledger := setA agentId ⟨DEFAULT_STARTING_CREDITS, 0⟩ st.ledger }
      else st
    let st := if (getA agentId st.reputation).isNone then
        { st with reputation := setA agentId ⟨0, 0⟩ st.reputation }
      else st
    let current := (getA agentId st.ledger).getD ⟨0, 0⟩
    (sess, ⟨st, [.authedReply agentId current.credits,
                 .agentAuthedTape agentId agentName current.credits], none⟩)

/-- `handlePostJob`. -/
def handlePostJob (now : Nat) (freshId : String) (requesterId : String) (title : String)
    (description : Option String) (budget : Rat) (kind : Option String)
    (payload : Option Payload) (st : ServerState) : HRes :=
  match getA requesterId st.ledger with
  | none => ⟨st, [.err "no_ledger_account"], none⟩
  | some acct =>
    if ratOfInt (acct.credits - acct.locked) < budget then
      ⟨st, [.err "insufficient_credits"], none⟩
    else
      let job : JobState :=
        { id := freshId
          title := title
          description := description
          budget := jsFloor budget
          requesterId := requesterId
          createdAtMs := now
          status := JobStatus.opened
          workerId := none
          kind := match kind with
            | some k => if k = "" then "simple" else k
            | none => "simple"
          payload := payload.getD Payload.empty
          bids := []
          lockedBudget := 0
          lockedStake := 0
          awardedAtMs := none
          paidUpfront := 0 }
      ⟨{ st with jobs := setA freshId job st.jobs }, [.bcast (.job_posted job)], none⟩

/-- `handleBid`. -/
def handleBid (now : Nat) (freshId : String) (bidderId : String) (jobId : String)
    (price etaSeconds : Rat) (pitch : Option String) (terms : Option Terms)
    (st : ServerState) : HRes :=
  match getA jobId st.jobs with
  | none => ⟨st, [.err "job_not_found"], none⟩
  | some job =>
    if job.status ≠ .opened then ⟨st, [.err "job_not_open"], none⟩
    else if price > ratOfInt job.budget then ⟨st, [.err "bid_over_budget"], none⟩
    else
      let rep := repOf st bidderId
      let bid : Bid :=
        { id := freshId
          jobId := job.id
          bidderId := bidderId
          price := jsFloor price
          etaSeconds := jsFloor etaSeconds
          createdAtMs := now
          pitch := pitch
          terms := terms
          bidderRep := some ⟨rep.completed, rep.failed, repScore rep⟩ }
      let job := { job with bids := job.bids ++ [bid] }
      ⟨{ st with jobs := setA job.id job st.jobs }, [.bcast (.bid_posted bid)], none⟩

/-- `handleAward`. -/
def handleAward (cfg : Config) (now : Nat) (requesterId : String) (jobId workerId : String)
    (notes : Option String) (st : ServerState) : HRes :=
  match getA jobId st.jobs with
  | none => ⟨st, [.err "job_not_found"], none⟩
  | some job => awardJob cfg now requesterId job workerId none notes st

/-- `handleSubmit`: move to review; on `coding` jobs attach the advisory
`auto_verify` evidence from the evaluator outcome. -/
def handleSubmit (now : Nat) (workerId : String) (jobId result : String)
    (evalOut : EvalResult) (st : ServerState) : HRes :=
  match getA jobId st.jobs with
  | none => ⟨st, [.err "job_not_found"], none⟩
  | some job =>
    if job.status ≠ .awarded then ⟨st, [.err "job_not_awarded"], none⟩
    else if job.workerId ≠ some workerId then ⟨st, [.err "not_assigned_worker"], none⟩
    else
      let st1 := disarmTimeout job.id st
      let job2 := { job with
        status := JobStatus.in_review
        payload := { job.payload with lastSubmission := some ⟨now, workerId, result⟩ } }
      let detail1 := "worker=" ++ workerId.take 12 ++ " bytes=" ++ toString result.length
      let st2 := addEvidence now job.id "submit" detail1 st1
      if job2.kind = "coding" then
        let autoVerify : AutoVerify := match evalOut with
          | .success => ⟨true, none⟩
          | .failure reason => ⟨false, some reason⟩
        let job3 := { job2 with payload := { job2.payload with autoVerify := some autoVerify } }
        let detail2 := match evalOut with
          | .success => "ok"
          | .failure reason => "fail reason=" ++ reason
        let st3 := addEvidence now job.id "auto_verify" detail2 st2
        ⟨{ st3 with jobs := setA job.id job3 st3.jobs },
         [.bcast (.job_submitted job.id workerId result.length (result.take 120)),
          .evidenceTape job.id "submit" detail1,
          .evidenceTape job.id "auto_verify" detail2], none⟩
      else
        ⟨{ st2 with jobs := setA job.id job2 st2.jobs },
         [.bcast (.job_submitted job.id workerId result.length (result.take 120)),
          .evidenceTape job.id "submit" detail1], none⟩

/-- `handleReview`: accept → settlement-success; reject → settlement-failure
then reopen; changes → back to `awarded` with a fresh deadline. -/
def handleReview (cfg : Config) (now : Nat) (reviewerId : String) (jobId : String)
    (decision : ReviewDecision) (notes : Option String) (st : ServerState) : HRes :=
  match getA jobId st.jobs with
  | none => ⟨st, [.err "job_not_found"], none⟩
  | some job =>
    if job.requesterId ≠ reviewerId then ⟨st, [.err "not_job_owner"], none⟩
    else if job.status ≠ .in_review then ⟨st, [.err "job_not_in_review"], none⟩
    else match job.workerId with
    | none => ⟨st, [.err "job_missing_worker"], none⟩
    | some workerId =>
      let detail := "decision=" ++ (match decision with
          | .accept => "accept" | .reject => "reject" | .changes => "changes") ++
        (match notes with | some n => " notes=" ++ n | none => "")
      let st1 := addEvidence now job.id "review" detail st
      let evs0 : List Ev := [.bcast (.job_reviewed job.id decision notes),
                             .evidenceTape job.id "review" detail]
      match decision with
      | .accept =>
        let r := systemCompleteJob now job.id workerId st1
        ⟨r.st, evs0 ++ r.evs, r.thrown⟩
      | .reject =>
        let r := systemFailJob cfg now job.id workerId (notes.getD "rejected") st1
        match r.thrown with
        | some e => ⟨r.st, evs0 ++ r.evs, some e⟩
        | none =>
          let r2 := systemReopenJob job.id r.st
          ⟨r2.st, evs0 ++ r.evs ++ r2.evs, r2.thrown⟩
      | .changes =>
        let job2 := { job with status := JobStatus.awarded }
        let st2 := { st1 with jobs := setA job.id job2 st1.jobs }
        let st3 := addEvidence now job.id "changes" (notes.getD "changes requested") st2
        let st4 := armTimeout job.id st3
        ⟨st4, evs0 ++ [.evidenceTape job.id "changes" (notes.getD "changes requested")], none⟩

def negotiationEnded (job : JobState) (workerId reason : String) (round : Nat) : Ev :=
  .bcast (.negotiation_ended job.id job.requesterId workerId reason
    (max 0 ((round : Int))))

/-- `handleCounterOffer` (requester → worker).  When the next round would
exceed `max(1, SYNAPSE_NEGOTIATION_MAX_ROUNDS)`, an existing negotiation is
closed as `max_rounds` (with evidence, `negotiation_ended` and a job
update) before the `negotiation_max_rounds` error is returned. -/
def handleCounterOffer (cfg : Config) (now : Nat) (requesterId : String)
    (jobId workerId : String) (price : Rat) (terms : Terms) (notes : Option String)
    (st : ServerState) : HRes :=
  match getA jobId st.jobs with
  | none => ⟨st, [.err "job_not_found"], none⟩
  | some job =>
    if job.requesterId ≠ requesterId then ⟨st, [.err "not_job_owner"], none⟩
    else if job.status ≠ .opened then ⟨st, [.err "job_not_open"], none⟩
    else match job.bids.find? (fun b => b.bidderId = workerId) with
    | none => ⟨st, [.err "worker_has_no_bid"], none⟩
    | some bid =>
      if price > ratOfInt job.budget then ⟨st, [.err "offer_over_budget"], none⟩
      else
        let maxRounds := max 1 cfg.maxRounds
        let prev := job.payload.negotiation
        if (match prev with
            | some p => decide (p.status = NegStatus.pending) && decide (p.workerId ≠ workerId)
            | none => false : Bool) then
          ⟨st, [.err "negotiation_in_progress"], none⟩
        else
          let nextRound : Nat := (match prev with | some p => p.round | none => 0) + 1
          if (nextRound : Int) > maxRounds then
            match prev with
            | some p =>
              let job2 := { job with payload := { job.payload with
                negotiation := some { p with status := .max_rounds, decidedAtMs := some now } } }
              let st1 := { st with jobs := setA job.id job2 st.jobs }
              let st2 := addEvidence now job.id "negotiation_end"
                ("max_rounds=" ++ toString maxRounds) st1
              ⟨st2, [.evidenceTape job.id "negotiation_end" ("max_rounds=" ++ toString maxRounds),
                     negotiationEnded job2 p.workerId "max_rounds" p.round,
                     broadcastJobUpdate job2, .err "negotiation_max_rounds"], none⟩
            | none => ⟨st, [.err "negotiation_max_rounds"], none⟩
          else
            let detail := "boss -> worker=" ++ workerId.take 12 ++ " price=" ++ toString price ++
              " upfront=" ++ toString terms.upfrontPct ++ " deadline=" ++
              toString terms.deadlineSeconds ++ "s rev=" ++ toString terms.maxRevisions ++
              (match notes with | some n => " notes=" ++ n | none => "")
            let st1 := addEvidence now job.id "offer" detail st
            let base : NegotiationState := match prev with
              | some p => if p.workerId = workerId then p else
                  ⟨workerId, bid.id, bid.price, price, .pending, 0, terms, notes, now, none, []⟩
              | none => ⟨workerId, bid.id, bid.price, price, .pending, 0, terms, notes, now, none, []⟩
            let job2 := { job with payload := { job.payload with
              negotiation := some { base with
                price := price
                status := .pending
                round := nextRound
                terms := terms
                notes := notes
                history := base.history ++ [⟨nextRound, .boss, price, terms, notes, now⟩] } } }
            let st2 := { st1 with jobs := setA job.id job2 st1.jobs }
            ⟨st2, [.bcast (.offer_made job.id requesterId workerId price terms notes),
                   .bcast (.counter_made job.id requesterId workerId .boss requesterId price
                     terms notes nextRound),
                   .evidenceTape job.id "offer" detail, broadcastJobUpdate job2], none⟩

/-- `handleWorkerCounter` (worker → requester). -/
def handleWorkerCounter (cfg : Config) (now : Nat) (workerId : String)
    (jobId requesterId : String) (price : Rat) (terms : Terms) (notes : Option String)
    (st : ServerState) : HRes :=
  match getA jobId st.jobs with
  | none => ⟨st, [.err "job_not_found"], none⟩
  | some job =>
    if job.status ≠ .opened then ⟨st, [.err "job_not_open"], none⟩
    else if requesterId ≠ job.requesterId then ⟨st, [.err "bad_requester"], none⟩
    else if price > ratOfInt job.budget then ⟨st, [.err "counter_over_budget"], none⟩
    else match job.payload.negotiation with
    | none => ⟨st, [.err "no_active_offer"], none⟩
    | some prev =>
      if prev.workerId ≠ workerId then ⟨st, [.err "not_offer_target"], none⟩
      else if prev.status ≠ .pending then ⟨st, [.err "negotiation_not_pending"], none⟩
      else
        let maxRounds := max 1 cfg.maxRounds
        let nextRound : Nat := prev.round + 1
        if (nextRound : Int) > maxRounds then
          let job2 := { job with payload := { job.payload with
            negotiation := some { prev with status := .max_rounds, decidedAtMs := some now } } }
          let st1 := { st with jobs := setA job.id job2 st.jobs }
          let st2 := addEvidence now job.id "negotiation_end"
            ("max_rounds=" ++ toString maxRounds) st1
          ⟨st2, [.evidenceTape job.id "negotiation_end" ("max_rounds=" ++ toString maxRounds),
                 negotiationEnded job2 prev.workerId "max_rounds" prev.round,
                 broadcastJobUpdate job2, .err "negotiation_max_rounds"], none⟩
        else
          let detail := "worker -> boss price=" ++ toString price ++ " upfront=" ++
            toString terms.upfrontPct ++ " deadline=" ++ toString terms.deadlineSeconds ++
            "s rev=" ++ toString terms.maxRevisions ++
            (match notes with | some n => " notes=" ++ n | none => "")
          let st1 := addEvidence now job.id "counter" detail st
          let job2 := { job with payload := { job.payload with
            negotiation := some { prev with
              price := price
              status := .pending
              round := nextRound
              terms := terms
              notes := notes
              history := prev.history ++ [⟨nextRound, .worker, price, terms, notes, now⟩] } } }
          let st2 := { st1 with jobs := setA job.id job2 st1.jobs }
          ⟨st2, [.bcast (.counter_made job.id job.requesterId workerId .worker workerId price
                   terms notes nextRound),
                 .evidenceTape job.id "counter" detail, broadcastJobUpdate job2], none⟩

/-- `handleOfferDecision` (worker accept/reject of the standing offer).
Note: no `pending` check — the stored negotiation is decided again even if
already closed. -/
def handleOfferDecision (cfg : Config) (now : Nat) (workerId : String)
    (jobId requesterId : String) (decision : OfferDecision) (notes : Option String)
    (st : ServerState) : HRes :=
  match getA jobId st.jobs with
  | none => ⟨st, [.err "job_not_found"], none⟩
  | some job =>
    match job.payload.negotiation with
    | none => ⟨st, [.err "no_active_offer"], none⟩
    | some negotiation =>
      if negotiation.workerId ≠ workerId then ⟨st, [.err "not_offer_target"], none⟩
      else if job.status ≠ .opened then ⟨st, [.err "job_not_open"], none⟩
      else if requesterId ≠ job.requesterId then ⟨st, [.err "bad_requester"], none⟩
      else
        let detail := "worker=" ++ workerId.take 12 ++ " decision=" ++
          (match decision with | .accept => "accept" | .reject => "reject") ++
          (match notes with | some n => " notes=" ++ n | none => "")
        let st1 := addEvidence now job.id "offer_response" detail st
        let job2 := { job with payload := { job.payload with
          negotiation := some { negotiation with
            status := match decision with | .accept => .accept | .reject => .reject
            decidedAtMs := some now } } }
        let st2 := { st1 with jobs := setA job.id job2 st1.jobs }
        let evs0 : List Ev :=
          [.bcast (.offer_response job.id job.requesterId workerId decision notes),
           .evidenceTape job.id "offer_response" detail, broadcastJobUpdate job2]
        match decision with
        | .reject =>
          let detail2 := "rejected by worker=" ++ workerId.take 12
          let st3 := addEvidence now job.id "negotiation_end" detail2 st2
          ⟨st3, evs0 ++ [.evidenceTape job.id "negotiation_end" detail2,
                negotiationEnded job2 workerId "rejected" negotiation.round], none⟩
        | .accept =>
          let job3 := { job2 with payload := { job2.payload with
            acceptedTerms := some negotiation.terms
            acceptedPrice := some negotiation.price } }
          let st3 := { st2 with jobs := setA job.id job3 st2.jobs }
          let detail3 := "accepted price=" ++ toString negotiation.price ++ " upfront=" ++
            toString negotiation.terms.upfrontPct ++ " deadline=" ++
            toString negotiation.terms.deadlineSeconds ++ "s rev=" ++
            toString negotiation.terms.maxRevisions
          let st4 := addEvidence now job.id "negotiation" detail3 st3
          let r := awardJob cfg now job.requesterId job3 workerId (some negotiation.price)
            (some ("offer_accept price=" ++ toString negotiation.price ++ " upfront=" ++
                   toString negotiation.terms.upfrontPct ++ " deadline=" ++
                   toString negotiation.terms.deadlineSeconds ++ "s rev=" ++
                   toString negotiation.terms.maxRevisions)) st4
          ⟨r.st, evs0 ++ [.evidenceTape job.id "negotiation" detail3] ++ r.evs, r.thrown⟩

/-- The `switch (msg.type)` dispatch of `onMessage` (`session.agentId!` is
the bound agent id of an authed session). -/
def dispatch (cfg : Config) (inp : StepIn) (sess : SessCtx) (msg : ClientMsg)
    (st : ServerState) : SessCtx × HRes :=
  let agentId := sess.agentId.getD ""
  match msg with
  | .auth agentName publicKey _signature nonce =>
    handleAuth sess agentName publicKey nonce inp.verifyOk st
  | .post_job title description budget kind payload =>
    (sess, handlePostJob inp.now inp.freshId agentId title description budget kind payload st)
  | .bid jobId price etaSeconds pitch terms =>
    (sess, handleBid inp.now inp.freshId agentId jobId price etaSeconds pitch terms st)
  | .award jobId workerId notes =>
    (sess, handleAward cfg inp.now agentId jobId workerId notes st)
  | .counter_offer jobId workerId price terms notes =>
    (sess, handleCounterOffer cfg inp.now agentId jobId workerId price terms notes st)
  | .worker_counter jobId requesterId price terms notes =>
    (sess, handleWorkerCounter cfg inp.now agentId jobId requesterId price terms notes st)
  | .offer_decision jobId requesterId decision notes =>
    (sess, handleOfferDecision cfg inp.now agentId jobId requesterId decision notes st)
  | .submit jobId result =>
    (sess, handleSubmit inp.now agentId jobId result inp.evalOut st)
  | .review jobId decision notes =>
    (sess, handleReview cfg inp.now agentId jobId decision notes st)

/-- One validated inbound message: the auth gate of `onMessage` followed by
dispatch. -/
def ClientMsg.isAuthMsg : ClientMsg → Bool
  | .auth _ _ _ _ => true
  | _ => false

def stepMsg (cfg : Config) (inp : StepIn) (sess : SessCtx) (msg : ClientMsg)
    (st : ServerState) : SessCtx × HRes :=
  if ¬ sess.authed ∧ msg.isAuthMsg = false then
    (sess, ⟨st, [.err "not_authenticated"], none⟩)
  else dispatch cfg inp sess msg st

/-! ## Wire validation (`protocol.ts` zod schemas)

A mini JSON model and the `safeParseAgentMessage` discriminated union.
`z.object` is used in its default mode throughout `protocol.ts`, which
*strips* keys that are not part of the schema rather than rejecting them;
the parsers below therefore look up exactly the declared keys.  Client
`post_job` payload bags are modelled by their `timeoutSeconds` entry — the
other typed sub-documents of `Payload` are only ever written by the server
and no verified property posts them from a client. -/

inductive JVal
  | num (q : Rat)
  | str (s : String)
  | jbool (b : Bool)
  | null
  | arr (xs : List JVal)
  | obj (fields : List (String × JVal))

/-- Required string field. -/
def asStr : Option JVal → Option String
  | some (.str s) => some s
  | _ => none

/-- Required number field. -/
def asNum : Option JVal → Option Rat
  | some (.num q) => some q
  | _ => none

/-- `z.string().optional()`: absent ok, present must be a string. -/
def optStr : Option JVal → Option (Option String)
  | none => some none
  | some (.str s) => some (some s)
  | _ => none

/-- `TermsSchema`: `upfrontPct ∈ [0,1]`, `deadlineSeconds > 0`,
`maxRevisions` an integer in `[0,10]`. -/
def parseTerms : JVal → Option Terms
  | .obj fs =>
    match asNum (getA "upfrontPct" fs), asNum (getA "deadlineSeconds" fs),
          asNum (getA "maxRevisions" fs) with
    | some up, some dl, some mr =>
      if 0 ≤ up ∧ up ≤ 1 ∧ 0 < dl ∧ mr.den = 1 ∧ 0 ≤ mr.num ∧ mr.num ≤ 10 then
        some ⟨up, dl, mr.num.toNat⟩
      else none
    | _, _, _ => none
  | _ => none

/-- `TermsSchema.optional()`. -/
def optTerms : Option JVal → Option (Option Terms)
  | none => some none
  | some v => (parseTerms v).map some

/-- `z.record(z.unknown())` payload bag, restricted to the key the core
reads from client-posted payloads. -/
def payloadOfJson : JVal → Option Payload
  | .obj fs => some { Payload.empty with timeoutSeconds := asNum (getA "timeoutSeconds" fs) }
  | _ => none

def optPayload : Option JVal → Option (Option Payload)
  | none => some none
  | some v => (payloadOfJson v).map some

/-- `z.literal(PROTOCOL_VERSION)`. -/
def vOk (fs : List (String × JVal)) : Bool :=
  match asNum (getA "v" fs) with
  | some q => q = mkRat 1 1
  | none => false

def parseAuth (fs : List (String × JVal)) : Option ClientMsg :=
  match asStr (getA "agentName" fs), asStr (getA "publicKey" fs),
        asStr (getA "signature" fs), asStr (getA "nonce" fs) with
  | some an, some pk, some sg, some nn =>
    if vOk fs ∧ 1 ≤ an.length then some (.auth an pk sg nn) else none
  | _, _, _, _ => none

def parsePostJob (fs : List (String × JVal)) : Option ClientMsg :=
  match asStr (getA "title" fs), optStr (getA "description" fs), asNum (getA "budget" fs),
        optStr (getA "kind" fs), optPayload (getA "payload" fs) with
  | some t, some d, some b, some k, some p =>
    if vOk fs ∧ 1 ≤ t.length ∧ 0 < b then some (.post_job t d b k p) else none
  | _, _, _, _, _ => none

def parseBid (fs : List (String × JVal)) : Option ClientMsg :=
  match asStr (getA "jobId" fs), asNum (getA "price" fs), asNum (getA "etaSeconds" fs),
        optStr (getA "pitch" fs), optTerms (getA "terms" fs) with
  | some j, some p, some e, some pi, some tm =>
    if vOk fs ∧ 0 < p ∧ 0 < e then some (.bid j p e pi tm) else none
  | _, _, _, _, _ => none

def parseAward (fs : List (String × JVal)) : Option ClientMsg :=
  match asStr (getA "jobId" fs), asStr (getA "workerId" fs), optStr (getA "notes" fs) with
  | some j, some w, some n => if vOk fs then some (.award j w n) else none
  | _, _, _ => none

def parseCounterOffer (fs : List (String × JVal)) : Option ClientMsg :=
  match asStr (getA "jobId" fs), asStr (getA "workerId" fs), asNum (getA "price" fs),
        (getA "terms" fs).bind parseTerms, optStr (getA "notes" fs) with
  | some j, some w, some p, some tm, some n =>
    if vOk fs ∧ 0 < p then some (.counter_offer j w p tm n) else none
  | _, _, _, _, _ => none

def parseWorkerCounter (fs : List (String × JVal)) : Option ClientMsg :=
  match asStr (getA "jobId" fs), asStr (getA "requesterId" fs), asNum (getA "price" fs),
        (getA "terms" fs).bind parseTerms, optStr (getA "notes" fs) with
  | some j, some r, some p, some tm, some n =>
    if vOk fs ∧ 0 < p then some (.worker_counter j r p tm n) else none
  | _, _, _, _, _ => none

def parseOfferDecision (fs : List (String × JVal)) : Option ClientMsg :=
  match asStr (getA "jobId" fs), asStr (getA "requesterId" fs),
        asStr (getA "decision" fs), optStr (getA "notes" fs) with
  | some j, some r, some d, some n =>
    if vOk fs then
      if d = "accept" then some (.offer_decision j r .accept n)
      else if d = "reject" then some (.offer_decision j r .reject n)
      else none
    else none
  | _, _, _, _ => none

def parseSubmit (fs : List (String × JVal)) : Option ClientMsg :=
  match asStr (getA "jobId" fs), asStr (getA "result" fs) with
  | some j, some r => if vOk fs then some (.submit j r) else none
  | _, _ => none

def parseReview (fs : List (String × JVal)) : Option ClientMsg :=
  match asStr (getA "jobId" fs), asStr (getA "decision" fs), optStr (getA "notes" fs) with
  | some j, some d, some n =>
    if vOk fs then
      if d = "accept" then some (.review j .accept n)
      else if d = "reject" then some (.review j .reject n)
      else if d = "changes" then some (.review j .changes n)
      else none
    else none
  | _, _, _ => none

/-- `safeParseAgentMessage`: parse one frame against
`AgentToServerMsgSchema` (discriminated on `type`; an unknown or missing
discriminator is a parse failure). -/
def safeParseAgentMessage : JVal → Option ClientMsg
  | .obj fs =>
    match asStr (getA "type" fs) with
    | some t =>
      if t = "auth" then parseAuth fs
      else if t = "post_job" then parsePostJob fs
      else if t = "bid" then parseBid fs
      else if t = "award" then parseAward fs
      else if t = "counter_offer" then parseCounterOffer fs
      else if t = "worker_counter" then parseWorkerCounter fs
      else if t = "offer_decision" then parseOfferDecision fs
      else if t = "submit" then parseSubmit fs
      else if t = "review" then parseReview fs
      else none
    | none => none
  | _ => none

/-- `onMessage` on a well-formed JSON frame: schema validation, then the
auth gate, then dispatch (text that is not JSON also fails with
`invalid_message` and is subsumed by the parse-failure branch). -/
def onFrame (cfg : Config) (inp : StepIn) (sess : SessCtx) (frame : JVal)
    (st : ServerState) : SessCtx × HRes :=
  match safeParseAgentMessage frame with
  | none => (sess, ⟨st, [.err "invalid_message"], none⟩)
  | some msg => stepMsg cfg inp sess msg st

/-! ## Reachability

States reachable from the empty server through validated client traffic.
Sessions are environment data: a step may use any session that is either
unauthenticated or honestly bound (agent id derived from a public key, with
an existing ledger account, exactly what `handleAuth` establishes).
Oracle inputs (`verifyOk`, `evalOut`) are environment-realizable outcomes. -/

def Terms.schemaOk (t : Terms) : Bool :=
  decide (0 ≤ t.upfrontPct) && decide (t.upfrontPct ≤ 1) &&
  decide (0 < t.deadlineSeconds) && decide (t.maxRevisions ≤ 10)

/-- The zod constraints of `AgentToServerMsgSchema`, on post-validation
messages. -/
def ClientMsg.schemaOk : ClientMsg → Bool
  | .auth an _ _ _ => decide (1 ≤ an.length)
  | .post_job t _ b _ _ => decide (1 ≤ t.length) && decide (0 < b)
  | .bid _ p e _ tm =>
    decide (0 < p) && decide (0 < e) && (match tm with | some t => t.schemaOk | none => true)
  | .award _ _ _ => true
  | .counter_offer _ _ p tm _ => decide (0 < p) && tm.schemaOk
  | .worker_counter _ _ p tm _ => decide (0 < p) && tm.schemaOk
  | .offer_decision _ _ _ _ => true
  | .submit _ _ => true
  | .review _ _ _ => true

/-- A session the environment can actually hold against state `st`. -/
def SessOk (sess : SessCtx) (st : ServerState) : Prop :=
  sess.authed = true →
    ∃ pk, sess.agentId = some (deriveAgentId pk) ∧
      (getA (deriveAgentId pk) st.ledger).isSome = true

inductive Reachable : ServerState → Prop
  | init : Reachable ServerState.init
  | step (cfg : Config) (inp : StepIn) (sess : SessCtx) (msg : ClientMsg) (st : ServerState) :
      Reachable st → msg.schemaOk = true → SessOk sess st →
      Reachable (stepMsg cfg inp sess msg st).2.st

/-! ## Spec-side definitions (stated from the specification text, for
comparison against the translated code) -/

/-- The stake formula as the spec states it:
`clamp(floor(clamp(floor(budget × stakePct), 0, 200) × mult), 0, 500)`. -/
def specStake (cfg : Config) (rep : Reputation) (budget : Int) : Int :=
  let base : Int := max 0 (min 200 (jsFloor (ratMul (ratOfInt budget) cfg.stakePct)))
  max 0 (min 500 (jsFloor (ratMul (ratOfInt base) (stakeMult (repScore rep)))))

/-! ## Concrete traces

Two agents authenticate with fresh Ed25519 keys (`verifyOk = true` is the
outcome the key owner can always realize); ids are derived from the public
keys by `deriveAgentId`. -/

def stepIn0 (now : Nat) (freshId : String) : StepIn := ⟨now, freshId, true, EvalResult.success⟩

def agentA : String := deriveAgentId "pkA"
def agentB : String := deriveAgentId "pkB"

def authStepA : SessCtx × HRes :=
  stepMsg defaultConfig (stepIn0 1 "") (SessCtx.fresh "nA")
    (.auth "alice" "pkA" "sigA" "nA") ServerState.init
def sessA : SessCtx := authStepA.1
def authStepB : SessCtx × HRes :=
  stepMsg defaultConfig (stepIn0 2 "") (SessCtx.fresh "nB")
    (.auth "bob" "pkB" "sigB" "nB") authStepA.2.st
def sessB : SessCtx := authStepB.1
/-- State after two fresh authentications (both agents hold 1000 credits). -/
def stAuthed : ServerState := authStepB.2.st

/-- C1 trace: post (budget 25), bid (10), direct award, submit,
review-reject — the reject runs `systemFailJob` then `systemReopenJob`. -/
def c1Post : SessCtx × HRes :=
  stepMsg defaultConfig (stepIn0 3 "job1") sessA (.post_job "t" none (mkRat 25 1) none none) stAuthed
def c1Bid : SessCtx × HRes :=
  stepMsg defaultConfig (stepIn0 4 "bid1") sessB (.bid "job1" (mkRat 10 1) (mkRat 2 1) none none) c1Post.2.st
def c1Award : SessCtx × HRes :=
  stepMsg defaultConfig (stepIn0 5 "") sessA (.award "job1" agentB none) c1Bid.2.st
def c1Submit : SessCtx × HRes :=
  stepMsg defaultConfig (stepIn0 6 "") sessB (.submit "job1" "done") c1Award.2.st
def c1Reject : SessCtx × HRes :=
  stepMsg defaultConfig (stepIn0 7 "") sessA (.review "job1" .reject none) c1Submit.2.st

/-- C4 trace: budget 100; worker bids 80 with terms `{0.2, 8, 1}`;
requester counter-offers 70 with the same terms; worker accepts; worker
submits; requester accepts. -/
def c4Terms : Terms := ⟨mkRat 1 5, mkRat 8 1, 1⟩

def c4Post : SessCtx × HRes :=
  stepMsg defaultConfig (stepIn0 3 "jobN") sessA
    (.post_job "t" none (mkRat 100 1) none none) stAuthed

def c4Bid : SessCtx × HRes :=
  stepMsg defaultConfig (stepIn0 4 "bidN") sessB
    (.bid "jobN" (mkRat 80 1) (mkRat 2 1) none (some c4Terms)) c4Post.2.st

def c4Counter : SessCtx × HRes :=
  stepMsg defaultConfig (stepIn0 5 "") sessA
    (.counter_offer "jobN" agentB (mkRat 70 1) c4Terms none) c4Bid.2.st

def c4Accept : SessCtx × HRes :=
  stepMsg defaultConfig (stepIn0 6 "") sessB
    (.offer_decision "jobN" agentA .accept none) c4Counter.2.st

def c4Submit : SessCtx × HRes :=
  stepMsg defaultConfig (stepIn0 7 "") sessB (.submit "jobN" "done") c4Accept.2.st

def c4Review : SessCtx × HRes :=
  stepMsg defaultConfig (stepIn0 8 "") sessA (.review "jobN" .accept none) c4Submit.2.st

/-- The error messages `awardJob` can emit. -/
def awardErrs : List String :=
  ["not_job_owner", "job_not_open", "worker_has_no_bid", "agreed_price_over_budget",
   "no_ledger_account", "insufficient_credits", "worker_no_ledger_account",
   "worker_insufficient_stake"]

/-- The fail-fast error messages of `handleOfferDecision` itself. -/
def offerDecisionPreErrs : List String :=
  ["job_not_found", "no_active_offer", "not_offer_target", "job_not_open", "bad_requester"]

/-- True when a list of emissions contains no on-wire `error`. -/
def noErrEv (evs : List Ev) : Bool :=
  evs.all fun ev => match ev with | .err _ => false | _ => true

def ClientMsg.isCounterLike : ClientMsg → Bool
  | .counter_offer _ _ _ _ _ => true
  | .worker_counter _ _ _ _ _ => true
  | _ => false

def ClientMsg.isOfferAccept : ClientMsg → Bool
  | .offer_decision _ _ .accept _ => true
  | _ => false

/-- The two families of on-wire errors that the code emits only after a
write: the `negotiation_max_rounds` closure on the two counter operations,
and an award failure surfaced while deciding `offer_decision{accept}`. -/
def c2Excluded (msg : ClientMsg) (e : String) : Prop :=
  (e = "negotiation_max_rounds" ∧ msg.isCounterLike = true) ∨
  (msg.isOfferAccept = true ∧ e ∈ awardErrs)

instance (msg : ClientMsg) (e : String) : Decidable (c2Excluded msg e) := by
  unfold c2Excluded
  infer_instance

/-- Negotiation trace reaching the default max round count 3:
counter (r1), worker counter (r2), counter (r3), then one more counter. -/
def c2W1 : SessCtx × HRes :=
  stepMsg defaultConfig (stepIn0 6 "") sessB
    (.worker_counter "jobN" agentA (mkRat 75 1) c4Terms none) c4Counter.2.st

def c2C2 : SessCtx × HRes :=
  stepMsg defaultConfig (stepIn0 7 "") sessA
    (.counter_offer "jobN" agentB (mkRat 72 1) c4Terms none) c2W1.2.st

def c2C3 : SessCtx × HRes :=
  stepMsg defaultConfig (stepIn0 8 "") sessA
    (.counter_offer "jobN" agentB (mkRat 71 1) c4Terms none) c2C2.2.st

/-- C10 trace: at the C4 negotiation state the worker first rejects, then
sends `offer_decision{accept}` on the closed negotiation. -/
def c10Reject : SessCtx × HRes :=
  stepMsg defaultConfig (stepIn0 6 "") sessB
    (.offer_decision "jobN" agentA .reject none) c4Counter.2.st

def c10Accept : SessCtx × HRes :=
  stepMsg defaultConfig (stepIn0 7 "") sessB
    (.offer_decision "jobN" agentA .accept none) c10Reject.2.st

/-- Placeholder records for total `Option.getD` extraction in witnesses. -/
def junkJob : JobState :=
  ⟨"", "", none, 0, "", 0, JobStatus.cancelled, none, "", {}, [], 0, 0, none, 0⟩

def junkNeg : NegotiationState :=
  ⟨"", "", 0, 0, NegStatus.reject, 0, ⟨0, 1, 0⟩, none, 0, none, []⟩

def junkBid : Bid := ⟨"", "", "", 0, 0, 0, none, none, none⟩

/-- Scenario 5 trace (`SYNAPSE_NEGOTIATION_MAX_ROUNDS = 2`): requester
counters (r1), worker counters (r2). -/
def cfg2 : Config := ⟨mkRat 1 20, mkRat 1 2, 2⟩

def c6Post : SessCtx × HRes :=
  stepMsg cfg2 (stepIn0 3 "jobM") sessA (.post_job "t" none (mkRat 100 1) none none) stAuthed

def c6Bid : SessCtx × HRes :=
  stepMsg cfg2 (stepIn0 4 "bidM") sessB (.bid "jobM" (mkRat 80 1) (mkRat 2 1) none none) c6Post.2.st

def c6C1 : SessCtx × HRes :=
  stepMsg cfg2 (stepIn0 5 "") sessA (.counter_offer "jobM" agentB (mkRat 70 1) c4Terms none) c6Bid.2.st

def c6W2 : SessCtx × HRes :=
  stepMsg cfg2 (stepIn0 6 "") sessB (.worker_counter "jobM" agentA (mkRat 75 1) c4Terms none) c6C1.2.st

def c6St : ServerState := c6W2.2.st

def c6Job : JobState := (getA "jobM" c6St.jobs).getD junkJob

def c6Neg : NegotiationState := (c6Job.payload.negotiation).getD junkNeg

def c6BidRec : Bid := (c6Job.bids.find? (fun b => b.bidderId = c6Neg.workerId)).getD junkBid

def c7Job : JobState :=
  ⟨"j1", "t", none, 50, "R", 0, JobStatus.awarded, some "W", "coding", {}, [], 50, 2, some 0, 0⟩

def c7St : ServerState :=
  ⟨[("R", ⟨100, 50⟩), ("W", ⟨40, 2⟩)], [], [("W", ⟨0, 0⟩)], [("j1", c7Job)], [], []⟩

def c8Job : JobState :=
  ⟨"j2", "t", none, 50, "R", 0, JobStatus.in_review, some "W", "simple", {}, [], 50, 2, some 0, 7⟩

def c8St : ServerState :=
  ⟨[("R", ⟨100, 43⟩), ("W", ⟨47, 2⟩)], [], [("W", ⟨0, 0⟩)], [("j2", c8Job)], [], []⟩

/-- Every top-level key read by some branch of `safeParseAgentMessage`
(the union of the per-type zod object schemas, plus the discriminator and
the protocol version). -/
def c3DeclaredKeys : List String :=
  ["type", "v", "agentName", "publicKey", "signature", "nonce", "title", "description",
   "budget", "kind", "payload", "jobId", "price", "etaSeconds", "pitch", "terms",
   "workerId", "notes", "requesterId", "decision", "result"]

def c3Frame : JVal :=
  .obj [("type", .str "submit"), ("v", .num (mkRat 1 1)), ("jobId", .str "j1"),
        ("result", .str "done"), ("hack", .str "x")]

/-! ## Theorems -/

/-- Sanity check of the SHA-256 implementation against the FIPS 180-4
"abc" test vector. -/

theorem sha256Hex_abc2 :
    sha256Hex "abc" = "ba7816bf8f01cfea414140de5dae2223b00361a396177a9cb410ff61f20015ad" := by
  decide

/-- C1: the claimed ledger invariant `0 ≤ locked ≤ credits` is broken by
the code on the review-reject path: `systemFailJob` refunds the locked
remainder but leaves `job.lockedBudget` set, and the immediately following
`systemReopenJob` subtracts `lockedBudget` a second time, driving the
requester's `locked` to −25 after a reachable five-message exchange
(budget 25, no upfront).  The final requester account is
`{credits := 1001, locked := −25}`. -/
theorem c1_reject_reopen_breaks_ledger_invariant :
    Reachable c1Reject.2.st ∧
    getA agentA c1Reject.2.st.ledger = some ⟨1001, -25⟩ ∧
    ¬ (∀ acct ∈ (c1Reject.2.st.ledger.map Prod.snd), 0 ≤ acct.locked ∧ acct.locked ≤ acct.credits) := by
  refine ⟨?_, by decide, by decide⟩
  have h0 : Reachable ServerState.init := Reachable.init
  have h1 := Reachable.step defaultConfig (stepIn0 1 "") (SessCtx.fresh "nA")
    (.auth "alice" "pkA" "sigA" "nA") ServerState.init h0 (by decide)
    (fun h => absurd h (by decide))
  have h2 := Reachable.step defaultConfig (stepIn0 2 "") (SessCtx.fresh "nB")
    (.auth "bob" "pkB" "sigB" "nB") authStepA.2.st h1 (by decide)
    (fun h => absurd h (by decide))
  have h3 := Reachable.step defaultConfig (stepIn0 3 "job1") sessA
    (.post_job "t" none (mkRat 25 1) none none) stAuthed h2 (by decide)
    (fun _ => ⟨"pkA", by decide, by decide⟩)
  have h4 := Reachable.step defaultConfig (stepIn0 4 "bid1") sessB
    (.bid "job1" (mkRat 10 1) (mkRat 2 1) none none) c1Post.2.st h3 (by decide)
    (fun _ => ⟨"pkB", by decide, by decide⟩)
  have h5 := Reachable.step defaultConfig (stepIn0 5 "") sessA
    (.award "job1" agentB none) c1Bid.2.st h4 (by decide)
    (fun _ => ⟨"pkA", by decide, by decide⟩)
  have h6 := Reachable.step defaultConfig (stepIn0 6 "") sessB
    (.submit "job1" "done") c1Award.2.st h5 (by decide)
    (fun _ => ⟨"pkB", by decide, by decide⟩)
  have h7 := Reachable.step defaultConfig (stepIn0 7 "") sessA
    (.review "job1" .reject none) c1Submit.2.st h6 (by decide)
    (fun _ => ⟨"pkA", by decide, by decide⟩)
  exact h7

/-- C4: the negotiation-plus-upfront scenario.  After the worker accepts
the 70-credit counter-offer the award locks 70 and immediately pays the
14-credit upfront (requester `{986, 56}`, worker credits 1014); after
submit and an accepting review the final accounts are requester
`{930, 0}` and worker `{1070, 0}`, and the `job_completed` broadcast
carries `paid = 70`. -/
theorem c4_negotiation_upfront_scenario :
    getA agentA c4Accept.2.st.ledger = some ⟨986, 56⟩ ∧
    (∃ locked, getA agentB c4Accept.2.st.ledger = some ⟨1014, locked⟩) ∧
    getA agentA c4Review.2.st.ledger = some ⟨930, 0⟩ ∧
    getA agentB c4Review.2.st.ledger = some ⟨1070, 0⟩ ∧
    Ev.bcast (.job_completed "jobN" agentB 70) ∈ c4Review.2.evs := by
  refine ⟨by decide, ⟨7, by decide⟩, by decide, by decide, by decide⟩

theorem err_not_mem_sendLedgerUpdate (e a : String) (st : ServerState) :
    Ev.err e ∈ sendLedgerUpdate a st ↔ False := by
  unfold sendLedgerUpdate
  cases getA a st.ledger <;> simp

set_option maxHeartbeats 1000000 in

/-- Every `error` surfaced by `awardJob` is raised before any write, and is
one of `awardErrs`. -/
theorem awardJob_err (cfg : Config) (now : Nat) (rid : String) (job : JobState)
    (wid : String) (ap : Option Rat) (notes : Option String) (st : ServerState) (e : String) :
    Ev.err e ∈ (awardJob cfg now rid job wid ap notes st).evs →
    (awardJob cfg now rid job wid ap notes st).st = st ∧ e ∈ awardErrs := by
  unfold awardJob
  by_cases h1 : job.requesterId ≠ rid
  · rw [if_pos h1]
    intro h
    simp only [List.mem_singleton, Ev.err.injEq] at h
    subst h
    exact ⟨by trivial, by simp [awardErrs]⟩
  rw [if_neg h1]
  by_cases h2 : job.status ≠ JobStatus.opened
  · rw [if_pos h2]
    intro h
    simp only [List.mem_singleton, Ev.err.injEq] at h
    subst h
    exact ⟨by trivial, by simp [awardErrs]⟩
  rw [if_neg h2]
  by_cases h3 : (job.bids.any fun b => b.bidderId = wid) = true
  case neg =>
    rw [if_pos h3]
    intro h
    simp only [List.mem_singleton, Ev.err.injEq] at h
    subst h
    exact ⟨by trivial, by simp [awardErrs]⟩
  case pos =>
    rw [if_neg (not_not_intro h3)]
    dsimp only
    generalize (max 1 (match ap with | some p => jsFloor p | none => job.budget) : Int) = sb
    by_cases h4 : sb > job.budget
    · rw [if_pos h4]
      intro h
      simp only [List.mem_singleton, Ev.err.injEq] at h
      subst h
      exact ⟨by trivial, by simp [awardErrs]⟩
    rw [if_neg h4]
    rcases hacct : getA rid st.ledger with _ | acct
    · simp only [hacct]
      intro h
      simp only [List.mem_singleton, Ev.err.injEq] at h
      subst h
      exact ⟨by trivial, by simp [awardErrs]⟩
    simp only [hacct]
    by_cases h5 : acct.credits - acct.locked < sb
    · rw [if_pos h5]
      intro h
      simp only [List.mem_singleton, Ev.err.injEq] at h
      subst h
      exact ⟨by trivial, by simp [awardErrs]⟩
    rw [if_neg h5]
    rcases hw : getA wid st.ledger with _ | wacct
    · simp only [hw]
      intro h
      simp only [List.mem_singleton, Ev.err.injEq] at h
      subst h
      exact ⟨by trivial, by simp [awardErrs]⟩
    simp only [hw]
    by_cases h6 : workerStakeFor cfg st job wid > 0 ∧
        wacct.credits - wacct.locked < workerStakeFor cfg st job wid
    · rw [if_pos h6]
      intro h
      simp only [List.mem_singleton, Ev.err.injEq] at h
      subst h
      exact ⟨by trivial, by simp [awardErrs]⟩
    rw [if_neg h6]
    intro h
    exfalso
    revert h
    split <;> (try split) <;>
      simp [err_not_mem_sendLedgerUpdate]

/-- `systemCompleteJob` never emits an on-wire `error` (failures are thrown). -/
theorem systemCompleteJob_no_err (now : Nat) (jobId workerId : String) (st : ServerState)
    (e : String) : Ev.err e ∉ (systemCompleteJob now jobId workerId st).evs := by
  unfold systemCompleteJob
  rcases hj : getA jobId st.jobs with _ | job
  · simp
  simp only [hj]
  by_cases g1 : job.status ≠ JobStatus.awarded ∧ job.status ≠ JobStatus.in_review
  · rw [if_pos g1]; simp
  rw [if_neg g1]
  by_cases g2 : job.workerId ≠ some workerId
  · rw [if_pos g2]; simp
  rw [if_neg g2]
  repeat' split
  all_goals simp [err_not_mem_sendLedgerUpdate, bumpReputationEv]

/-- `systemFailJob` never emits an on-wire `error` (failures are thrown). -/
theorem systemFailJob_no_err (cfg : Config) (now : Nat) (jobId workerId reason : String)
    (st : ServerState) (e : String) :
    Ev.err e ∉ (systemFailJob cfg now jobId workerId reason st).evs := by
  unfold systemFailJob
  rcases hj : getA jobId st.jobs with _ | job
  · simp
  simp only [hj]
  by_cases g1 : job.status ≠ JobStatus.awarded ∧ job.status ≠ JobStatus.in_review
  · rw [if_pos g1]; simp
  rw [if_neg g1]
  by_cases g2 : job.workerId ≠ some workerId
  · rw [if_pos g2]; simp
  rw [if_neg g2]
  repeat' split
  all_goals simp [err_not_mem_sendLedgerUpdate, bumpReputationEv]

/-- `systemReopenJob` never emits an on-wire `error`. -/
theorem systemReopenJob_no_err (jobId : String) (st : ServerState) (e : String) :
    Ev.err e ∉ (systemReopenJob jobId st).evs := by
  unfold systemReopenJob
  rcases hj : getA jobId st.jobs with _ | job
  · simp
  simp only [hj]
  by_cases g1 : job.status ≠ JobStatus.awarded ∧ job.status ≠ JobStatus.failed
  · rw [if_pos g1]; simp
  rw [if_neg g1]
  repeat' split
  all_goals simp [err_not_mem_sendLedgerUpdate, broadcastJobUpdate]

/-- Auth errors (`bad_nonce`, `bad_agent_name`,
`signature_verification_failed`) are raised before any write. -/
theorem handleAuth_err (sess : SessCtx) (an pk nn : String) (vOk : Bool) (st : ServerState)
    (e : String) :
    Ev.err e ∈ (handleAuth sess an pk nn vOk st).2.evs →
    (handleAuth sess an pk nn vOk st).2.st = st := by
  unfold handleAuth
  by_cases g1 : sess.authed = true
  · rw [if_pos g1]; simp
  rw [if_neg g1]
  by_cases g2 : nn ≠ sess.challengeNonceB64
  · rw [if_pos g2]; simp
  rw [if_neg g2]
  by_cases g3 : an.length < 1
  · rw [if_pos g3]; simp
  rw [if_neg g3]
  by_cases g4 : ¬ vOk = true
  · rw [if_pos g4]; simp
  rw [if_neg g4]
  simp

/-- `post_job` errors are raised before any write. -/
theorem handlePostJob_err (now : Nat) (freshId rid title : String) (d : Option String)
    (budget : Rat) (kind : Option String) (p : Option Payload) (st : ServerState) (e : String) :
    Ev.err e ∈ (handlePostJob now freshId rid title d budget kind p st).evs →
    (handlePostJob now freshId rid title d budget kind p st).st = st := by
  unfold handlePostJob
  rcases hacct : getA rid st.ledger with _ | acct
  · simp [hacct]
  simp only [hacct]
  by_cases g1 : ratOfInt (acct.credits - acct.locked) < budget
  · rw [if_pos g1]; simp
  rw [if_neg g1]
  simp

/-- `bid` errors are raised before any write. -/
theorem handleBid_err (now : Nat) (freshId bidderId jobId : String) (price eta : Rat)
    (pitch : Option String) (terms : Option Terms) (st : ServerState) (e : String) :
    Ev.err e ∈ (handleBid now freshId bidderId jobId price eta pitch terms st).evs →
    (handleBid now freshId bidderId jobId price eta pitch terms st).st = st := by
  unfold handleBid
  rcases hj : getA jobId st.jobs with _ | job
  · simp [hj]
  simp only [hj]
  by_cases g1 : job.status ≠ JobStatus.opened
  · rw [if_pos g1]; simp
  rw [if_neg g1]
  by_cases g2 : price > ratOfInt job.budget
  · rw [if_pos g2]; simp
  rw [if_neg g2]
  simp

/-- `award` errors are raised before any write. -/
theorem handleAward_err (cfg : Config) (now : Nat) (rid jobId wid : String)
    (notes : Option String) (st : ServerState) (e : String) :
    Ev.err e ∈ (handleAward cfg now rid jobId wid notes st).evs →
    (handleAward cfg now rid jobId wid notes st).st = st := by
  unfold handleAward
  rcases hj : getA jobId st.jobs with _ | job
  · simp [hj]
  simp only [hj]
  exact fun h => (awardJob_err cfg now rid job wid none notes st e h).1

/-- `submit` errors are raised before any write. -/
theorem handleSubmit_err (now : Nat) (wid jobId result : String) (evalOut : EvalResult)
    (st : ServerState) (e : String) :
    Ev.err e ∈ (handleSubmit now wid jobId result evalOut st).evs →
    (handleSubmit now wid jobId result evalOut st).st = st := by
  unfold handleSubmit
  rcases hj : getA jobId st.jobs with _ | job
  · simp [hj]
  simp only [hj]
  by_cases g1 : job.status ≠ JobStatus.awarded
  · rw [if_pos g1]; simp
  rw [if_neg g1]
  by_cases g2 : job.workerId ≠ some wid
  · rw [if_pos g2]; simp
  rw [if_neg g2]
  intro h
  exfalso
  revert h
  split <;> simp

/-- `review` errors are raised before any write (the settlement paths emit
no `error`: their failures are thrown). -/
theorem handleReview_err (cfg : Config) (now : Nat) (rid jobId : String)
    (decision : ReviewDecision) (notes : Option String) (st : ServerState) (e : String) :
    Ev.err e ∈ (handleReview cfg now rid jobId decision notes st).evs →
    (handleReview cfg now rid jobId decision notes st).st = st := by
  unfold handleReview
  rcases hj : getA jobId st.jobs with _ | job
  · simp [hj]
  simp only [hj]
  by_cases g1 : job.requesterId ≠ rid
  · rw [if_pos g1]; simp
  rw [if_neg g1]
  by_cases g2 : job.status ≠ JobStatus.in_review
  · rw [if_pos g2]; simp
  rw [if_neg g2]
  rcases hw : job.workerId with _ | wid
  · simp [hw]
  simp only [hw]
  intro h
  exfalso
  revert h
  cases decision
  · simp [systemCompleteJob_no_err]
  · split <;> (try split) <;>
      simp_all [systemCompleteJob_no_err, systemFailJob_no_err, systemReopenJob_no_err]
  · simp

set_option maxHeartbeats 1000000 in

/-- `counter_offer` errors leave the state unchanged, except
`negotiation_max_rounds`, which closes an existing negotiation first. -/
theorem handleCounterOffer_err (cfg : Config) (now : Nat) (rid jobId wid : String)
    (price : Rat) (terms : Terms) (notes : Option String) (st : ServerState) (e : String) :
    Ev.err e ∈ (handleCounterOffer cfg now rid jobId wid price terms notes st).evs →
    e = "negotiation_max_rounds" ∨
    (handleCounterOffer cfg now rid jobId wid price terms notes st).st = st := by
  unfold handleCounterOffer
  rcases hj : getA jobId st.jobs with _ | job
  · simp [hj]
  simp only [hj]
  by_cases g1 : job.requesterId ≠ rid
  · rw [if_pos g1]; simp
  rw [if_neg g1]
  by_cases g2 : job.status ≠ JobStatus.opened
  · rw [if_pos g2]; simp
  rw [if_neg g2]
  rcases hb : job.bids.find? (fun b => b.bidderId = wid) with _ | bid
  · simp [hb]
  simp only [hb]
  by_cases g3 : price > ratOfInt job.budget
  · rw [if_pos g3]; simp
  rw [if_neg g3]
  by_cases g4 : (match job.payload.negotiation with
      | some p => decide (p.status = NegStatus.pending) && decide (p.workerId ≠ wid)
      | none => false : Bool) = true
  · rw [if_pos g4]; simp
  rw [if_neg g4]
  by_cases g5 : (((match job.payload.negotiation with | some p => p.round | none => 0) + 1 : Nat) :
      Int) > max 1 cfg.maxRounds
  · rw [if_pos g5]
    rcases hn : job.payload.negotiation with _ | prev
    · simp [hn]
    · simp [hn, negotiationEnded, broadcastJobUpdate]
      tauto
  rw [if_neg g5]
  intro h
  exfalso
  revert h
  simp [negotiationEnded, broadcastJobUpdate]

set_option maxHeartbeats 1000000 in

/-- `worker_counter` errors leave the state unchanged, except
`negotiation_max_rounds`, which closes the pending negotiation first. -/
theorem handleWorkerCounter_err (cfg : Config) (now : Nat) (wid jobId rid : String)
    (price : Rat) (terms : Terms) (notes : Option String) (st : ServerState) (e : String) :
    Ev.err e ∈ (handleWorkerCounter cfg now wid jobId rid price terms notes st).evs →
    e = "negotiation_max_rounds" ∨
    (handleWorkerCounter cfg now wid jobId rid price terms notes st).st = st := by
  unfold handleWorkerCounter
  rcases hj : getA jobId st.jobs with _ | job
  · simp [hj]
  simp only [hj]
  by_cases g1 : job.status ≠ JobStatus.opened
  · rw [if_pos g1]; simp
  rw [if_neg g1]
  by_cases g2 : rid ≠ job.requesterId
  · rw [if_pos g2]; simp
  rw [if_neg g2]
  by_cases g3 : price > ratOfInt job.budget
  · rw [if_pos g3]; simp
  rw [if_neg g3]
  rcases hn : job.payload.negotiation with _ | prev
  · simp [hn]
  simp only [hn]
  by_cases g4 : prev.workerId ≠ wid
  · rw [if_pos g4]; simp
  rw [if_neg g4]
  by_cases g5 : prev.status ≠ NegStatus.pending
  · rw [if_pos g5]; simp
  rw [if_neg g5]
  by_cases g6 : ((prev.round + 1 : Nat) : Int) > max 1 cfg.maxRounds
  · rw [if_pos g6]
    simp [negotiationEnded, broadcastJobUpdate]
    tauto
  rw [if_neg g6]
  intro h
  exfalso
  revert h
  simp [negotiationEnded, broadcastJobUpdate]

set_option maxHeartbeats 1000000 in

/-- `offer_decision` errors either precede all writes, or (decision
`accept` only) surface from `awardJob` after the negotiation has already
been marked accepted. -/
theorem handleOfferDecision_err (cfg : Config) (now : Nat) (wid jobId rid : String)
    (decision : OfferDecision) (notes : Option String) (st : ServerState) (e : String) :
    Ev.err e ∈ (handleOfferDecision cfg now wid jobId rid decision notes st).evs →
    ((handleOfferDecision cfg now wid jobId rid decision notes st).st = st ∧
      e ∈ offerDecisionPreErrs) ∨
    (decision = OfferDecision.accept ∧ e ∈ awardErrs) := by
  unfold handleOfferDecision
  rcases hj : getA jobId st.jobs with _ | job
  · (simp [hj, offerDecisionPreErrs]; tauto)
  simp only [hj]
  rcases hn : job.payload.negotiation with _ | negotiation
  · (simp [hn, offerDecisionPreErrs]; tauto)
  simp only [hn]
  by_cases g1 : negotiation.workerId ≠ wid
  · rw [if_pos g1]; (simp [offerDecisionPreErrs]; tauto)
  rw [if_neg g1]
  by_cases g2 : job.status ≠ JobStatus.opened
  · rw [if_pos g2]; (simp [offerDecisionPreErrs]; tauto)
  rw [if_neg g2]
  by_cases g3 : rid ≠ job.requesterId
  · rw [if_pos g3]; (simp [offerDecisionPreErrs]; tauto)
  rw [if_neg g3]
  cases decision with
  | accept =>
    dsimp only
    intro h
    rw [List.mem_append] at h
    rcases h with h | h
    · exact absurd h (by simp [broadcastJobUpdate])
    · exact Or.inr ⟨rfl, (awardJob_err _ _ _ _ _ _ _ _ _ h).2⟩
  | reject =>
    intro h
    exfalso
    revert h
    simp [negotiationEnded, broadcastJobUpdate]

/-- C2 (amended): for every inbound message and every state, an on-wire
`error{message}` reply implies the server state is exactly as before —
except for the two excluded families of `c2Excluded`. -/
theorem c2_error_replies_leave_state_unchanged (cfg : Config) (inp : StepIn) (sess : SessCtx)
    (msg : ClientMsg) (st : ServerState) (e : String)
    (h : Ev.err e ∈ (stepMsg cfg inp sess msg st).2.evs)
    (hx : ¬ c2Excluded msg e) :
    (stepMsg cfg inp sess msg st).2.st = st := by
  unfold stepMsg at h ⊢
  by_cases g : ¬ sess.authed = true ∧ msg.isAuthMsg = false
  · rw [if_pos g] at h ⊢
  rw [if_neg g] at h ⊢
  unfold dispatch at h ⊢
  cases msg with
  | auth an pk sig nonce => exact handleAuth_err _ _ _ _ _ _ _ h
  | post_job t d b k p => exact handlePostJob_err _ _ _ _ _ _ _ _ _ _ h
  | bid j pr eta pi tm => exact handleBid_err _ _ _ _ _ _ _ _ _ _ h
  | award j w n => exact handleAward_err _ _ _ _ _ _ _ _ h
  | counter_offer j w pr tm n =>
    rcases handleCounterOffer_err _ _ _ _ _ _ _ _ _ _ h with he | hst
    · exact absurd (Or.inl ⟨he, rfl⟩) hx
    · exact hst
  | worker_counter j r pr tm n =>
    rcases handleWorkerCounter_err _ _ _ _ _ _ _ _ _ _ h with he | hst
    · exact absurd (Or.inl ⟨he, rfl⟩) hx
    · exact hst
  | offer_decision j r decision n =>
    rcases handleOfferDecision_err _ _ _ _ _ _ _ _ _ h with ⟨hst, _⟩ | ⟨hacc, hmem⟩
    · exact hst
    · subst hacc
      exact absurd (Or.inr ⟨rfl, hmem⟩) hx
  | submit j res => exact handleSubmit_err _ _ _ _ _ _ _ h
  | review j dec n => exact handleReview_err _ _ _ _ _ _ _ _ h

/-- C2 witness: a concrete erroring message (unauthenticated `submit`)
leaves the concrete state unchanged, via the C2 theorem. -/
theorem c2_error_replies_leave_state_unchanged_witness :
    (stepMsg defaultConfig (stepIn0 0 "") (SessCtx.fresh "n") (.submit "j" "r")
      ServerState.init).2.st = ServerState.init :=
  c2_error_replies_leave_state_unchanged defaultConfig (stepIn0 0 "") (SessCtx.fresh "n")
    (.submit "j" "r") ServerState.init "not_authenticated" (by decide) (by decide)

/-- C2 counterexample: at a reachable state whose negotiation is at round
3 (the default maximum), a further `counter_offer` replies
`error{negotiation_max_rounds}` *and* mutates the server state (the
negotiation sub-document is closed and evidence is appended). -/
theorem c2_counterexample_max_rounds_error_mutates :
    Reachable c2C2.2.st ∧
    Ev.err "negotiation_max_rounds" ∈ c2C3.2.evs ∧
    c2C3.2.st ≠ c2C2.2.st := by
  refine ⟨?_, by decide, by decide⟩
  have h0 : Reachable ServerState.init := Reachable.init
  have h1 := Reachable.step defaultConfig (stepIn0 1 "") (SessCtx.fresh "nA")
    (.auth "alice" "pkA" "sigA" "nA") ServerState.init h0 (by decide)
    (fun h => absurd h (by decide))
  have h2 := Reachable.step defaultConfig (stepIn0 2 "") (SessCtx.fresh "nB")
    (.auth "bob" "pkB" "sigB" "nB") authStepA.2.st h1 (by decide)
    (fun h => absurd h (by decide))
  have h3 := Reachable.step defaultConfig (stepIn0 3 "jobN") sessA
    (.post_job "t" none (mkRat 100 1) none none) stAuthed h2 (by decide)
    (fun _ => ⟨"pkA", by decide, by decide⟩)
  have h4 := Reachable.step defaultConfig (stepIn0 4 "bidN") sessB
    (.bid "jobN" (mkRat 80 1) (mkRat 2 1) none (some c4Terms)) c4Post.2.st h3 (by decide)
    (fun _ => ⟨"pkB", by decide, by decide⟩)
  have h5 := Reachable.step defaultConfig (stepIn0 5 "") sessA
    (.counter_offer "jobN" agentB (mkRat 70 1) c4Terms none) c4Bid.2.st h4 (by decide)
    (fun _ => ⟨"pkA", by decide, by decide⟩)
  have h6 := Reachable.step defaultConfig (stepIn0 6 "") sessB
    (.worker_counter "jobN" agentA (mkRat 75 1) c4Terms none) c4Counter.2.st h5 (by decide)
    (fun _ => ⟨"pkB", by decide, by decide⟩)
  have h7 := Reachable.step defaultConfig (stepIn0 7 "") sessA
    (.counter_offer "jobN" agentB (mkRat 72 1) c4Terms none) c2W1.2.st h6 (by decide)
    (fun _ => ⟨"pkA", by decide, by decide⟩)
  exact h7

/-- C10: `offer_decision` does not require the negotiation to be pending.
At a reachable state whose negotiation was already closed with `reject`
(job still open), a second `offer_decision{accept}` from the negotiation
worker produces no error at all — in particular not
`negotiation_not_pending` — and re-runs the award path at the stored
negotiated price (70).  Moreover `handleOfferDecision` can never emit
`negotiation_not_pending` for any input. -/
theorem c10_offer_decision_ignores_closed_negotiation :
    Reachable c10Reject.2.st ∧
    ((getA "jobN" c10Reject.2.st.jobs).map JobState.status = some JobStatus.opened ∧
      ((getA "jobN" c10Reject.2.st.jobs).bind (fun j => j.payload.negotiation)).map
        NegotiationState.status = some NegStatus.reject) ∧
    noErrEv c10Accept.2.evs = true ∧
    ((getA "jobN" c10Accept.2.st.jobs).map JobState.status = some JobStatus.awarded ∧
      (getA "jobN" c10Accept.2.st.jobs).map JobState.workerId = some (some agentB) ∧
      (getA "jobN" c10Accept.2.st.jobs).map JobState.lockedBudget = some 70) ∧
    (∀ (cfg : Config) (now : Nat) (wid jobId rid : String) (decision : OfferDecision)
      (notes : Option String) (st : ServerState),
      Ev.err "negotiation_not_pending" ∉
        (handleOfferDecision cfg now wid jobId rid decision notes st).evs) := by
  refine ⟨?_, by decide, by decide, by decide, ?_⟩
  · have h0 : Reachable ServerState.init := Reachable.init
    have h1 := Reachable.step defaultConfig (stepIn0 1 "") (SessCtx.fresh "nA")
      (.auth "alice" "pkA" "sigA" "nA") ServerState.init h0 (by decide)
      (fun h => absurd h (by decide))
    have h2 := Reachable.step defaultConfig (stepIn0 2 "") (SessCtx.fresh "nB")
      (.auth "bob" "pkB" "sigB" "nB") authStepA.2.st h1 (by decide)
      (fun h => absurd h (by decide))
    have h3 := Reachable.step defaultConfig (stepIn0 3 "jobN") sessA
      (.post_job "t" none (mkRat 100 1) none none) stAuthed h2 (by decide)
      (fun _ => ⟨"pkA", by decide, by decide⟩)
    have h4 := Reachable.step defaultConfig (stepIn0 4 "bidN") sessB
      (.bid "jobN" (mkRat 80 1) (mkRat 2 1) none (some c4Terms)) c4Post.2.st h3 (by decide)
      (fun _ => ⟨"pkB", by decide, by decide⟩)
    have h5 := Reachable.step defaultConfig (stepIn0 5 "") sessA
      (.counter_offer "jobN" agentB (mkRat 70 1) c4Terms none) c4Bid.2.st h4 (by decide)
      (fun _ => ⟨"pkA", by decide, by decide⟩)
    have h6 := Reachable.step defaultConfig (stepIn0 6 "") sessB
      (.offer_decision "jobN" agentA .reject none) c4Counter.2.st h5 (by decide)
      (fun _ => ⟨"pkB", by decide, by decide⟩)
    exact h6
  · intro cfg now wid jobId rid decision notes st h
    rcases handleOfferDecision_err cfg now wid jobId rid decision notes st
      "negotiation_not_pending" h with ⟨_, hmem⟩ | ⟨_, hmem⟩ <;> revert hmem <;> decide

theorem jsFloor_zero_mul (m : Rat) : jsFloor (ratMul (ratOfInt 0) m) = 0 := by
  simp [ratMul, ratOfInt, jsFloor]

/-- C5 (amended): the stake actually locked equals the spec formula
`clamp(floor(clamp(floor(budget × stakePct), 0, 200) × mult), 0, 500)`
with the multiplier thresholds as stated — but a fresh worker has score
1/2 and multiplier 3/2 (not 1), since 1/2 falls in the `≥ 0.45` bucket. -/
theorem c5_stake_formula_fresh_mult :
    (∀ (cfg : Config) (st : ServerState) (job : JobState) (wid : String),
      workerStakeFor cfg st job wid = specStake cfg (repOf st wid) job.budget) ∧
    repScore ⟨0, 0⟩ = mkRat 1 2 ∧
    stakeMult (repScore ⟨0, 0⟩) = mkRat 3 2 := by
  refine ⟨?_, by decide, by decide⟩
  intro cfg st job wid
  unfold workerStakeFor specStake workerStakeForJob
  by_cases hb : (max 0 (min 200 (jsFloor (ratMul (ratOfInt job.budget) cfg.stakePct))) : Int) ≤ 0
  · rw [if_pos hb]
    have h0 : (max 0 (min 200 (jsFloor (ratMul (ratOfInt job.budget) cfg.stakePct))) : Int) = 0 :=
      le_antisymm hb (le_max_left 0 _)
    rw [h0]
    simp [jsFloor_zero_mul]
  · rw [if_neg hb]

/-- C5 counterexample: under the claimed multiplier 1.0 for a fresh
worker, a budget-100 job would require a stake of 5; the code computes 7
(= floor(5 × 1.5)).  Hence the claim is false as stated. -/
theorem c5_counterexample_fresh_worker_stake :
    specStake defaultConfig ⟨0, 0⟩ 100 = 7 ∧
    max 0 (min 500 (jsFloor (ratMul (ratOfInt (max 0 (min 200
      (jsFloor (ratMul (ratOfInt 100) defaultConfig.stakePct))))) (1 : Rat)))) = 5 ∧
    stakeMult (repScore ⟨0, 0⟩) ≠ 1 := by
  refine ⟨by decide, by decide, by decide⟩

theorem getA_setA {α : Type} (k : String) (v : α) (l : List (String × α)) :
    getA k (setA k v l) = some v := by
  induction l with
  | nil => simp [getA, setA]
  | cons hd tl ih =>
    rcases hd with ⟨k2, v2⟩
    unfold setA
    by_cases hk : k2 = k
    · rw [if_pos hk]
      unfold getA
      rw [if_pos hk]
    · rw [if_neg hk]
      unfold getA
      rw [if_neg hk]
      exact ih

set_option maxHeartbeats 1000000 in

/-- C6: with a pending negotiation at round `r = max(1, maxRounds)`, a
further `counter_offer` — and likewise a further `worker_counter` — closes
the negotiation with status `max_rounds` (stamped `decidedAtMs = now`),
broadcasts `negotiation_ended{reason:"max_rounds", round:r}`, replies
`error{negotiation_max_rounds}` to the sender, and leaves the job status
`open`. -/
theorem c6_max_rounds_closure
    (cfg : Config) (now : Nat) (st : ServerState) (jobId : String) (job : JobState)
    (neg : NegotiationState) (bid : Bid) (price price2 : Rat) (terms terms2 : Terms)
    (notes notes2 : Option String)
    (hj : getA jobId st.jobs = some job)
    (hid : job.id = jobId)
    (hopen : job.status = JobStatus.opened)
    (hneg : job.payload.negotiation = some neg)
    (hpend : neg.status = NegStatus.pending)
    (hround : (neg.round : Int) = max 1 cfg.maxRounds)
    (hbid : job.bids.find? (fun b => b.bidderId = neg.workerId) = some bid)
    (hp1 : ¬ price > ratOfInt job.budget)
    (hp2 : ¬ price2 > ratOfInt job.budget) :
    (Ev.err "negotiation_max_rounds" ∈
      (handleCounterOffer cfg now job.requesterId jobId neg.workerId price terms notes st).evs ∧
     Ev.bcast (.negotiation_ended jobId job.requesterId neg.workerId "max_rounds" (neg.round : Int)) ∈
      (handleCounterOffer cfg now job.requesterId jobId neg.workerId price terms notes st).evs ∧
     (getA jobId
       (handleCounterOffer cfg now job.requesterId jobId neg.workerId price terms notes st).st.jobs).map
         JobState.status = some JobStatus.opened ∧
     ((getA jobId
       (handleCounterOffer cfg now job.requesterId jobId neg.workerId price terms notes st).st.jobs).bind
         (fun j => j.payload.negotiation)) =
       some { neg with status := NegStatus.max_rounds, decidedAtMs := some now }) ∧
    (Ev.err "negotiation_max_rounds" ∈
      (handleWorkerCounter cfg now neg.workerId jobId job.requesterId price2 terms2 notes2 st).evs ∧
     Ev.bcast (.negotiation_ended jobId job.requesterId neg.workerId "max_rounds" (neg.round : Int)) ∈
      (handleWorkerCounter cfg now neg.workerId jobId job.requesterId price2 terms2 notes2 st).evs ∧
     (getA jobId
       (handleWorkerCounter cfg now neg.workerId jobId job.requesterId price2 terms2 notes2 st).st.jobs).map
         JobState.status = some JobStatus.opened ∧
     ((getA jobId
       (handleWorkerCounter cfg now neg.workerId jobId job.requesterId price2 terms2 notes2 st).st.jobs).bind
         (fun j => j.payload.negotiation)) =
       some { neg with status := NegStatus.max_rounds, decidedAtMs := some now }) := by
  have hmax : ((neg.round + 1 : Nat) : Int) > max 1 cfg.maxRounds := by
    push_cast
    omega
  have hmax0 : max 0 ((neg.round : Int)) = (neg.round : Int) :=
    max_eq_right (Int.natCast_nonneg _)
  constructor
  · unfold handleCounterOffer
    rw [hj]
    simp only [Option.some.injEq]
    rw [if_neg (by simp)]
    rw [if_neg (by simp [hopen])]
    rw [hbid]
    simp only
    rw [if_neg hp1]
    rw [if_neg (by simp [hneg])]
    rw [hneg]
    simp only
    rw [if_pos hmax]
    refine ⟨by simp, ?_, ?_, ?_⟩
    · simp [negotiationEnded, hid, hmax0]
    · rw [← hid]
      simp only [addEvidence]
      rw [getA_setA]
      simp [hopen]
    · rw [← hid]
      simp only [addEvidence]
      rw [getA_setA]
      simp
  · unfold handleWorkerCounter
    rw [hj]
    simp only [Option.some.injEq]
    rw [if_neg (by simp [hopen])]
    rw [if_neg (by simp)]
    rw [if_neg hp2]
    rw [hneg]
    simp only
    rw [if_neg (by simp)]
    rw [if_neg (by simp [hpend])]
    rw [if_pos hmax]
    refine ⟨by simp, ?_, ?_, ?_⟩
    · simp [negotiationEnded, hid, hmax0]
    · rw [← hid]
      simp only [addEvidence]
      rw [getA_setA]
      simp [hopen]
    · rw [← hid]
      simp only [addEvidence]
      rw [getA_setA]
      simp

/-- C6 witness: with max rounds 2 and the r1/r2 scenario of the spec, a
third requester counter is rejected with `negotiation_max_rounds` and the
`negotiation_ended` broadcast carries round 2. -/
theorem c6_max_rounds_closure_witness :
    Ev.err "negotiation_max_rounds" ∈
      (handleCounterOffer cfg2 7 c6Job.requesterId "jobM" c6Neg.workerId (mkRat 72 1) c4Terms
        none c6St).evs ∧
    Ev.bcast (.negotiation_ended "jobM" c6Job.requesterId c6Neg.workerId "max_rounds"
        ((c6Neg.round : Int))) ∈
      (handleCounterOffer cfg2 7 c6Job.requesterId "jobM" c6Neg.workerId (mkRat 72 1) c4Terms
        none c6St).evs ∧
    (c6Neg.round : Int) = 2 ∧
    (getA "jobM" (handleCounterOffer cfg2 7 c6Job.requesterId "jobM" c6Neg.workerId (mkRat 72 1)
        c4Terms none c6St).st.jobs).map JobState.status = some JobStatus.opened := by
  have h := c6_max_rounds_closure cfg2 7 c6St "jobM" c6Job c6Neg c6BidRec
    (mkRat 72 1) (mkRat 73 1) c4Terms c4Terms none none
    (by decide) (by decide) (by decide) (by decide) (by decide) (by decide) (by decide)
    (by decide) (by decide)
  exact ⟨h.1.1, h.1.2.1, by decide, h.1.2.2.1⟩

set_option maxHeartbeats 1000000 in

/-- C7: a submit on an awarded `coding` job by its assigned worker moves
the job to `in_review`, records the submission, and attaches the advisory
`auto_verify` sub-document and evidence from the evaluator outcome — with
no ledger change, no reputation change, no settlement broadcast and no
throw.  Settlement waits for the review. -/
theorem c7_submit_coding_advisory
    (now : Nat) (wid jobId result : String) (evalOut : EvalResult) (st : ServerState)
    (job : JobState)
    (hj : getA jobId st.jobs = some job)
    (hid : job.id = jobId)
    (hstatus : job.status = JobStatus.awarded)
    (hw : job.workerId = some wid)
    (hkind : job.kind = "coding") :
    (handleSubmit now wid jobId result evalOut st).st.ledger = st.ledger ∧
    (handleSubmit now wid jobId result evalOut st).st.reputation = st.reputation ∧
    getA jobId (handleSubmit now wid jobId result evalOut st).st.jobs = some
      { job with
        status := JobStatus.in_review
        payload := { job.payload with
          lastSubmission := some ⟨now, wid, result⟩
          autoVerify := some (match evalOut with
            | .success => ⟨true, none⟩
            | .failure reason => ⟨false, some reason⟩) } } ∧
    Ev.evidenceTape job.id "auto_verify"
      (match evalOut with
        | .success => "ok"
        | .failure reason => "fail reason=" ++ reason) ∈
      (handleSubmit now wid jobId result evalOut st).evs ∧
    (∀ j w p, Ev.bcast (.job_completed j w p) ∉ (handleSubmit now wid jobId result evalOut st).evs) ∧
    (∀ j w r, Ev.bcast (.job_failed j w r) ∉ (handleSubmit now wid jobId result evalOut st).evs) ∧
    (handleSubmit now wid jobId result evalOut st).thrown = none := by
  unfold handleSubmit
  rw [hj]
  simp only
  rw [if_neg (by simp [hstatus])]
  rw [if_neg (by simp [hw])]
  rw [if_pos (by simp [hkind])]
  simp only [addEvidence, disarmTimeout]
  refine ⟨by trivial, by trivial, ?_, by simp, by simp, by simp, by trivial⟩
  rw [← hid]
  exact getA_setA _ _ _

set_option maxHeartbeats 1000000 in

/-- C8: a `changes` review on an `in_review` job reverts its status to
`awarded`, re-arms the deadline timer, and changes nothing else on the
job — `lockedBudget`, `lockedStake`, `paidUpfront` and `workerId` are the
original values — nor on any ledger account or reputation row. -/
theorem c8_review_changes_frame
    (cfg : Config) (now : Nat) (rid jobId : String) (notes : Option String)
    (st : ServerState) (job : JobState) (wid : String)
    (hj : getA jobId st.jobs = some job)
    (hid : job.id = jobId)
    (hreq : job.requesterId = rid)
    (hstatus : job.status = JobStatus.in_review)
    (hw : job.workerId = some wid) :
    (handleReview cfg now rid jobId ReviewDecision.changes notes st).st.ledger = st.ledger ∧
    (handleReview cfg now rid jobId ReviewDecision.changes notes st).st.reputation =
      st.reputation ∧
    getA jobId (handleReview cfg now rid jobId ReviewDecision.changes notes st).st.jobs =
      some { job with status := JobStatus.awarded } ∧
    (getA jobId (handleReview cfg now rid jobId ReviewDecision.changes notes st).st.timers).isSome
      = true ∧
    (handleReview cfg now rid jobId ReviewDecision.changes notes st).thrown = none := by
  unfold handleReview
  rw [hj]
  simp only
  rw [if_neg (by simp [hreq])]
  rw [if_neg (by simp [hstatus])]
  rw [hw]
  simp only [addEvidence]
  unfold armTimeout disarmTimeout
  rw [← hid]
  simp only [addEvidence, getA_setA]
  rw [if_pos (by simp [hw])]
  refine ⟨by trivial, by trivial, ?_, ?_, by trivial⟩
  · simp only [getA_setA]
  · simp only [getA_setA]
    rfl

/-- C7 witness: a failing evaluator outcome on a concrete awarded coding
job only attaches `{ok:false, reason}`; ledger rows are untouched. -/
theorem c7_submit_coding_advisory_witness :
    (handleSubmit 9 "W" "j1" "res" (.failure "boom") c7St).st.ledger = c7St.ledger ∧
    getA "j1" (handleSubmit 9 "W" "j1" "res" (.failure "boom") c7St).st.jobs = some
      { c7Job with
        status := JobStatus.in_review
        payload := { c7Job.payload with
          lastSubmission := some ⟨9, "W", "res"⟩
          autoVerify := some ⟨false, some "boom"⟩ } } ∧
    (∀ j w p, Ev.bcast (.job_completed j w p) ∉
      (handleSubmit 9 "W" "j1" "res" (.failure "boom") c7St).evs) := by
  have h := c7_submit_coding_advisory 9 "W" "j1" "res" (.failure "boom") c7St c7Job
    (by decide) (by decide) (by decide) (by decide) (by decide)
  exact ⟨h.1, h.2.2.1, h.2.2.2.2.1⟩

/-- C8 witness: a concrete `changes` review reverts the job to `awarded`
with every other job field (`lockedBudget`, `lockedStake`, `paidUpfront`,
`workerId`) intact, leaves both ledger rows unchanged, and re-arms the
timer. -/
theorem c8_review_changes_frame_witness :
    (handleReview defaultConfig 9 "R" "j2" ReviewDecision.changes none c8St).st.ledger =
      c8St.ledger ∧
    getA "j2" (handleReview defaultConfig 9 "R" "j2" ReviewDecision.changes none c8St).st.jobs =
      some { c8Job with status := JobStatus.awarded } ∧
    (getA "j2" (handleReview defaultConfig 9 "R" "j2" ReviewDecision.changes none
      c8St).st.timers).isSome = true := by
  have h := c8_review_changes_frame defaultConfig 9 "R" "j2" none c8St c8Job "W"
    (by decide) (by decide) (by decide) (by decide) (by decide)
  exact ⟨h.1, h.2.2.1, h.2.2.2.1⟩

theorem handleAuth_success (sess : SessCtx) (an pk : String) (st : ServerState)
    (h : sess.authed = false) (ha : 1 ≤ an.length) :
    (handleAuth sess an pk sess.challengeNonceB64 true st).1.agentId
        = some (deriveAgentId pk) ∧
    ∃ c, (handleAuth sess an pk sess.challengeNonceB64 true st).2.evs.head?
        = some (.authedReply (deriveAgentId pk) c) := by
  unfold handleAuth
  rw [if_neg (by simp [h]), if_neg (by simp), if_neg (by omega), if_neg (by simp)]
  exact ⟨rfl, _, rfl⟩

/-- C9: `deriveAgentId pk` is literally `"agent_" ++ sha256Hex pk`; a
successful auth installs exactly this id in the session and replies
`authed` carrying it, so two distinct sessions (different nonces, names,
server states) authenticating with the same public key obtain the same
`agentId`.  Determinism and per-key injectivity are immediate: the id is a
pure function of the key. -/
theorem c9_identity_stability (pk an1 an2 : String) (sess1 sess2 : SessCtx)
    (st1 st2 : ServerState)
    (h1 : sess1.authed = false) (h2 : sess2.authed = false)
    (ha1 : 1 ≤ an1.length) (ha2 : 1 ≤ an2.length) :
    deriveAgentId pk = "agent_" ++ sha256Hex pk ∧
    (handleAuth sess1 an1 pk sess1.challengeNonceB64 true st1).1.agentId
      = some (deriveAgentId pk) ∧
    (handleAuth sess2 an2 pk sess2.challengeNonceB64 true st2).1.agentId
      = some (deriveAgentId pk) ∧
    (∃ c1, (handleAuth sess1 an1 pk sess1.challengeNonceB64 true st1).2.evs.head?
      = some (.authedReply (deriveAgentId pk) c1)) ∧
    (∃ c2, (handleAuth sess2 an2 pk sess2.challengeNonceB64 true st2).2.evs.head?
      = some (.authedReply (deriveAgentId pk) c2)) ∧
    (handleAuth sess1 an1 pk sess1.challengeNonceB64 true st1).1.agentId
      = (handleAuth sess2 an2 pk sess2.challengeNonceB64 true st2).1.agentId := by
  have g1 := handleAuth_success sess1 an1 pk st1 h1 ha1
  have g2 := handleAuth_success sess2 an2 pk st2 h2 ha2
  exact ⟨rfl, g1.1, g2.1, g1.2, g2.2, g1.1.trans g2.1.symm⟩

/-- C9 witness: two concrete fresh sessions with different nonces and
agent names, authenticating with the same key `"pkA"`, both obtain
`agentA`. -/
theorem c9_identity_stability_witness :
    (handleAuth (SessCtx.fresh "n1") "alice" "pkA" "n1" true ServerState.init).1.agentId
      = some (deriveAgentId "pkA") ∧
    (handleAuth (SessCtx.fresh "n2") "bob" "pkA" "n2" true stAuthed).1.agentId
      = some (deriveAgentId "pkA") ∧
    (handleAuth (SessCtx.fresh "n1") "alice" "pkA" "n1" true ServerState.init).1.agentId
      = (handleAuth (SessCtx.fresh "n2") "bob" "pkA" "n2" true stAuthed).1.agentId := by
  have h := c9_identity_stability "pkA" "alice" "bob" (SessCtx.fresh "n1") (SessCtx.fresh "n2")
    ServerState.init stAuthed (by decide) (by decide) (by decide) (by decide)
  exact ⟨h.2.1, h.2.2.1, h.2.2.2.2.2⟩

theorem getA_append_ne {α : Type} (k k' : String) (v : α) (h : ¬ k = k') :
    ∀ fs : List (String × α), getA k' (fs ++ [(k, v)]) = getA k' fs
  | [] => by simp [getA, h]
  | (k2, v2) :: rest => by
    simp only [List.cons_append, getA]
    by_cases hk : k2 = k'
    · rw [if_pos hk, if_pos hk]
    · rw [if_neg hk, if_neg hk]
      exact getA_append_ne k k' v h rest

/-- C3 (amended): `z.object` in `protocol.ts` runs in its default *strip*
mode, so validation reads only the declared keys — adding a field whose
key is not declared by any message schema never changes the parse result,
and the whole frame is handled identically (dispatched, not rejected with
`invalid_message`). -/
theorem c3_unknown_fields_stripped (fs : List (String × JVal)) (k : String) (v : JVal)
    (hk : k ∉ c3DeclaredKeys) (cfg : Config) (inp : StepIn) (sess : SessCtx)
    (st : ServerState) :
    safeParseAgentMessage (.obj (fs ++ [(k, v)])) = safeParseAgentMessage (.obj fs) ∧
    onFrame cfg inp sess (.obj (fs ++ [(k, v)])) st = onFrame cfg inp sess (.obj fs) st := by
  have e : ∀ k', k' ∈ c3DeclaredKeys → getA k' (fs ++ [(k, v)]) = getA k' fs :=
    fun k' h' => getA_append_ne k k' v (fun heq => hk (heq ▸ h')) fs
  have hmain : safeParseAgentMessage (.obj (fs ++ [(k, v)]))
      = safeParseAgentMessage (.obj fs) := by
    simp only [safeParseAgentMessage, parseAuth, parsePostJob, parseBid, parseAward,
      parseCounterOffer, parseWorkerCounter, parseOfferDecision, parseSubmit, parseReview, vOk]
    simp only [e "type" (by decide), e "v" (by decide), e "agentName" (by decide),
      e "publicKey" (by decide), e "signature" (by decide), e "nonce" (by decide),
      e "title" (by decide), e "description" (by decide), e "budget" (by decide),
      e "kind" (by decide), e "payload" (by decide), e "jobId" (by decide),
      e "price" (by decide), e "etaSeconds" (by decide), e "pitch" (by decide),
      e "terms" (by decide), e "workerId" (by decide), e "notes" (by decide),
      e "requesterId" (by decide), e "decision" (by decide), e "result" (by decide)]
  refine ⟨hmain, ?_⟩
  unfold onFrame
  rw [hmain]

/-- C3 witness: a concrete `submit` frame carrying the undeclared key
`"hack"` parses exactly as the frame without it. -/
theorem c3_unknown_fields_stripped_witness :
    safeParseAgentMessage (.obj ([("type", JVal.str "submit"), ("v", JVal.num (mkRat 1 1)),
        ("jobId", JVal.str "j1"), ("result", JVal.str "done")] ++ [("hack", JVal.str "x")]))
      = safeParseAgentMessage (.obj [("type", JVal.str "submit"), ("v", JVal.num (mkRat 1 1)),
        ("jobId", JVal.str "j1"), ("result", JVal.str "done")]) :=
  (c3_unknown_fields_stripped
    [("type", JVal.str "submit"), ("v", JVal.num (mkRat 1 1)),
     ("jobId", JVal.str "j1"), ("result", JVal.str "done")]
    "hack" (JVal.str "x") (by decide) defaultConfig (stepIn0 5 "x") sessA stAuthed).1

/-- C3 counterexample to the frozen claim: a well-formed `submit` frame
with the unknown field `"hack"` is *not* rejected with `invalid_message`;
it parses successfully and is dispatched to `handleSubmit` (which here
reports `job_not_found`, proving the handler ran). -/
theorem c3_counterexample_unknown_field_dispatched :
    safeParseAgentMessage c3Frame = some (.submit "j1" "done") ∧
    Ev.err "invalid_message" ∉ (onFrame defaultConfig (stepIn0 5 "x") sessA c3Frame
      stAuthed).2.evs ∧
    Ev.err "job_not_found" ∈ (onFrame defaultConfig (stepIn0 5 "x") sessA c3Frame
      stAuthed).2.evs := by
  refine ⟨by decide, by decide, by decide⟩
